import Mathlib

/-!
Verification development for the planner-agent backend service.

The repository is a FastAPI + MongoDB + LLM service.  We shallowly embed the
parts of the code the specification talks about:

* Python/JSON values are modelled by `JVal`; Python dicts (and Mongo
  documents) by insertion-ordered association lists `Doc` with unique keys
  (uniqueness is a fact about Python dicts, stated as a hypothesis where a
  proof needs it).
* The Mongo collections are lists of documents.  Every filter the source
  issues is an equality match on a single string-valued field (an ObjectId
  rendered as its 24-hex-character string, or a `project_id` string), so
  `update_one` with `$set` (with and without `upsert=True`) and
  `find_one_and_update` are modelled by `mongoUpsert` and `findAndSet` over
  such filters; `find_one` by `findDoc`.
* `datetime.utcnow()` is an explicit `now : Nat` parameter.
* The LLM provider is external and nondeterministic: each invocation consumes
  the next element of a `List LLMOutcome`.
* `json.loads` is modelled by a small executable JSON parser `jsonParseL`
  (objects, arrays, strings with common escapes, integers, literals; no
  floats or unicode escapes - nothing in the verified claims depends on
  those).

Exceptions are modelled with `Except`; every Python `try`/`except` boundary
becomes an explicit `match` on the inner `Except` value.
-/

set_option autoImplicit false

/-- JSON/Python values as stored and exchanged by the service. -/
inductive JVal where
  | str : String → JVal
  | num : Int → JVal
  | bool : Bool → JVal
  | null : JVal
  | arr : List JVal → JVal
  | obj : List (String × JVal) → JVal

/-- A Python dict / Mongo document: insertion-ordered key-value pairs. -/
abbrev Doc := List (String × JVal)

/-- First value bound to key `k`, like `d[k]` / Mongo field access. -/
def lookupKey (d : Doc) (k : String) : Option JVal :=
  match d with
  | [] => none
  | (k', v) :: rest => if k' = k then some v else lookupKey rest k

/-- Key-membership test, like Python's `k in d` for a dict. -/
def hasKey (d : Doc) (k : String) : Bool :=
  match d with
  | [] => false
  | (k', _) :: rest => if k' = k then true else hasKey rest k

/-- Python dict assignment `d[k] = v`: replace in place, else append. -/
def setKey (d : Doc) (k : String) (v : JVal) : Doc :=
  match d with
  | [] => [(k, v)]
  | (k', v') :: rest => if k' = k then (k, v) :: rest else (k', v') :: setKey rest k v

/-- Apply a sequence of dict assignments (Mongo `$set` document). -/
def setKeys (d : Doc) (fields : Doc) : Doc :=
  match fields with
  | [] => d
  | (k, v) :: rest => setKeys (setKey d k v) rest

/-- Python `del d[k]` (no error if the key is absent, as the source guards). -/
def delKey (d : Doc) (k : String) : Doc :=
  match d with
  | [] => []
  | (k', v') :: rest => if k' = k then rest else (k', v') :: delKey rest k

/-- The keys of a Python dict are pairwise distinct. -/
def keysNodup (d : Doc) : Prop := (d.map Prod.fst).Nodup

instance (d : Doc) : Decidable (keysNodup d) := by
  unfold keysNodup; infer_instance

/-- Does field `k` of document `d` hold the string `v`?  This is the only
form of filter the source ever issues against a collection. -/
def keyIsStr (d : Doc) (k : String) (v : String) : Bool :=
  match lookupKey d k with
  | some (.str s) => s = v
  | _ => false

/-- Mongo `find_one({k: v})` over a collection: first matching document. -/
def findDoc (coll : List Doc) (k : String) (v : String) : Option Doc :=
  match coll with
  | [] => none
  | d :: rest => if keyIsStr d k v then some d else findDoc rest k v

/-- Mongo `update_one({k: v}, {"$set": fields}, upsert=True)`: merge the
`$set` document into the first match, else insert `{k: v}` merged with the
`$set` document. -/
def mongoUpsert (coll : List Doc) (k : String) (v : String) (fields : Doc) : List Doc :=
  match coll with
  | [] => [setKeys [(k, .str v)] fields]
  | d :: rest =>
      if keyIsStr d k v then setKeys d fields :: rest
      else d :: mongoUpsert rest k v fields

/-- Mongo `find_one_and_update({k: v}, {"$set": ud}, ReturnDocument.AFTER)`:
returns the post-update document (or `none`) and the new collection. -/
def findAndSet (coll : List Doc) (k : String) (v : String) (ud : Doc) :
    Option Doc × List Doc :=
  match coll with
  | [] => (none, [])
  | d :: rest =>
      if keyIsStr d k v then (some (setKeys d ud), setKeys d ud :: rest)
      else
        let (r, rest') := findAndSet rest k v ud
        (r, d :: rest')

/-! String utilities mirroring the Python `str` operations the source uses. -/

/-- Whitespace removed by Python `str.strip()` (the characters occurring in
this code base's responses). -/
def isWs (c : Char) : Bool := c = ' ' || c = '\t' || c = '\n' || c = '\r'

/-- Python `str.strip()` on the character list. -/
def pyStripL (cs : List Char) : List Char :=
  ((cs.dropWhile isWs).reverse.dropWhile isWs).reverse

/-- Python `str.find(c)`: index of the first occurrence, `none` for `-1`. -/
def findIdxCh (cs : List Char) (c : Char) : Option Nat :=
  match cs with
  | [] => none
  | x :: rest => if x = c then some 0 else (findIdxCh rest c).map (· + 1)

/-- Python `str.rfind(c)`: index of the last occurrence, `none` for `-1`. -/
def rfindIdxCh (cs : List Char) (c : Char) : Option Nat :=
  match findIdxCh cs.reverse c with
  | some k => some (cs.length - 1 - k)
  | none => none

/-- The response-repair step shared by `generate_project_plan` (with braces)
and `refine_project_tasks` (with brackets): strip; if the text does not start
with the opening bracket, slice between the first opening and last closing
bracket when both exist. -/
def cleanWrapped (openB closeB : Char) (cs : List Char) : List Char :=
  if (pyStripL cs).head? = some openB then pyStripL cs
  else
    match findIdxCh (pyStripL cs) openB, rfindIdxCh (pyStripL cs) closeB with
    | some i, some j => ((pyStripL cs).take (j + 1)).drop i
    | _, _ => pyStripL cs

/-! A small executable model of `json.loads`: JSON objects, arrays, strings
with the common escapes, integers and the three literals.  Floats and
`\uXXXX` escapes are outside the model; no claim depends on them. -/

/-- JSON insignificant whitespace. -/
def jWsp (c : Char) : Bool := c = ' ' || c = '\t' || c = '\n' || c = '\r'

def jskip (cs : List Char) : List Char := cs.dropWhile jWsp

/-- Single-character JSON escapes. -/
def escChar (c : Char) : Option Char :=
  if c = '"' then some '"'
  else if c = '\\' then some '\\'
  else if c = '/' then some '/'
  else if c = 'n' then some '\n'
  else if c = 't' then some '\t'
  else if c = 'r' then some '\r'
  else if c = 'b' then some (Char.ofNat 8)
  else if c = 'f' then some (Char.ofNat 12)
  else none

/-- Parse the body of a JSON string after the opening quote; returns the
decoded characters and the input after the closing quote. -/
def parseStrBody (cs : List Char) : Option (List Char × List Char) :=
  match cs with
  | [] => none
  | '"' :: rest => some ([], rest)
  | '\\' :: rest =>
      match rest with
      | [] => none
      | e :: rest' =>
          match escChar e, parseStrBody rest' with
          | some c, some (s, r) => some (c :: s, r)
          | _, _ => none
  | c :: rest =>
      match parseStrBody rest with
      | some (s, r) => some (c :: s, r)
      | none => none

def digitsVal (cs : List Char) : Nat :=
  cs.foldl (fun n c => n * 10 + (c.toNat - 48)) 0

/-- Parse a JSON integer (floats are outside the model). -/
def parseNum (cs : List Char) : Option (JVal × List Char) :=
  let (neg, cs1) :=
    match cs with
    | '-' :: rest => (true, rest)
    | _ => (false, cs)
  let ds := cs1.takeWhile Char.isDigit
  let rest := cs1.dropWhile Char.isDigit
  if ds.isEmpty then none
  else
    match rest with
    | '.' :: _ => none
    | 'e' :: _ => none
    | 'E' :: _ => none
    | _ =>
        let n : Int := Int.ofNat (digitsVal ds)
        some (.num (if neg then -n else n), rest)

mutual

/-- Parse one JSON value (fuel bounds the nesting depth). -/
def parseVal : Nat → List Char → Option (JVal × List Char)
  | 0, _ => none
  | fuel + 1, cs =>
      match jskip cs with
      | '"' :: rest =>
          match parseStrBody rest with
          | some (s, r) => some (.str ⟨s⟩, r)
          | none => none
      | '{' :: rest =>
          match jskip rest with
          | '}' :: r => some (.obj [], r)
          | cs2 =>
              match parseMembers fuel cs2 with
              | some (kvs, r) => some (.obj kvs, r)
              | none => none
      | '[' :: rest =>
          match jskip rest with
          | ']' :: r => some (.arr [], r)
          | cs2 =>
              match parseElems fuel cs2 with
              | some (vs, r) => some (.arr vs, r)
              | none => none
      | 't' :: 'r' :: 'u' :: 'e' :: r => some (.bool true, r)
      | 'f' :: 'a' :: 'l' :: 's' :: 'e' :: r => some (.bool false, r)
      | 'n' :: 'u' :: 'l' :: 'l' :: r => some (.null, r)
      | cs' => parseNum cs'

/-- Parse `"key": value` members separated by commas, up to the closing
brace. -/
def parseMembers : Nat → List Char → Option (Doc × List Char)
  | 0, _ => none
  | fuel + 1, cs =>
      match jskip cs with
      | '"' :: rest =>
          match parseStrBody rest with
          | none => none
          | some (k, r1) =>
              match jskip r1 with
              | ':' :: r2 =>
                  match parseVal fuel r2 with
                  | none => none
                  | some (v, r3) =>
                      match jskip r3 with
                      | ',' :: r4 =>
                          match parseMembers fuel r4 with
                          | some (kvs, r5) => some ((⟨k⟩, v) :: kvs, r5)
                          | none => none
                      | '}' :: r4 => some ([(⟨k⟩, v)], r4)
                      | _ => none
              | _ => none
      | _ => none

/-- Parse array elements separated by commas, up to the closing bracket. -/
def parseElems : Nat → List Char → Option (List JVal × List Char)
  | 0, _ => none
  | fuel + 1, cs =>
      match parseVal fuel cs with
      | none => none
      | some (v, r1) =>
          match jskip r1 with
          | ',' :: r2 =>
              match parseElems fuel r2 with
              | some (vs, r) => some (v :: vs, r)
              | none => none
          | ']' :: r2 => some ([v], r2)
          | _ => none

end

/-- The model of `json.loads` on a character list: one JSON value followed
only by whitespace, else failure (`json.JSONDecodeError`). -/
def jsonParseL (cs : List Char) : Option JVal :=
  match parseVal (cs.length + 1) cs with
  | some (v, rest) => if jskip rest = [] then some v else none
  | none => none

/-- Python `needle in hay` on strings (substring test). -/
def strSubstr (needle : List Char) : List Char → Bool
  | [] => needle.isEmpty
  | c :: rest => needle.isPrefixOf (c :: rest) || strSubstr needle rest

/-! The bson ObjectId format and the exception model. -/

def isHexDig (c : Char) : Bool :=
  c.isDigit || ('a' ≤ c && c ≤ 'f') || ('A' ≤ c && c ≤ 'F')

/-- `bson.ObjectId.is_valid` on a string: exactly 24 hex characters.
`ObjectId(s)` raises `InvalidId` exactly when this is false. -/
def isValidObjectId (s : String) : Bool :=
  s.data.length = 24 && s.data.all isHexDig

/-- Outcome of one LLM provider invocation (the provider is external and
nondeterministic; each call consumes the next outcome). -/
inductive LLMOutcome where
  | success (text : String)
  | rateLimitError
  | apiError
  | otherError (msg : String)

/-- The two exception classes `tenacity.retry_if_exception_type` retries on:
`openai.RateLimitError` and `openai.APIError`. -/
def LLMOutcome.isTransient : LLMOutcome → Bool
  | .rateLimitError => true
  | .apiError => true
  | _ => false

/-- Python exceptions raised inside the modelled code. -/
inductive PyExc where
  | httpExc (status : Nat) (detail : String)
  | invalidId
  | typeErr
  | keyErr
  | malformedPlan          -- ValueError: invalid JSON response from the LLM
  | malformedRefinement    -- ValueError: invalid JSON response for refined tasks
  | incompletePlan (missing : List String)
  | invalidResponseFormat  -- ValueError: response empty or not a string
  | retryErr (last : LLMOutcome)  -- tenacity RetryError after 3 attempts
  | pyExc (msg : String)   -- any other exception, carrying str(e)

/-- Approximate rendering of Python `str(e)` (claims depend only on the
presence of the message, not its exact text). -/
def pyStrExc : PyExc → String
  | .httpExc _ detail => detail
  | .invalidId => "is not a valid ObjectId"
  | .typeErr => "type error"
  | .keyErr => "key error"
  | .malformedPlan => "Invalid JSON response from LLM"
  | .malformedRefinement => "Invalid JSON response for refined tasks"
  | .incompletePlan ms => "Missing required fields in plan: " ++ String.intercalate ", " ms
  | .invalidResponseFormat => "Invalid response format"
  | .retryErr _ => "RetryError"
  | .pyExc m => m

/-- Python `str(v)` (exact only for strings, the case the source exercises:
project ids are strings). -/
def pyStr : JVal → String
  | .str s => s
  | .num n => toString n
  | .bool b => if b then "True" else "False"
  | .null => "None"
  | .arr _ => "<list>"
  | .obj _ => "<dict>"

/-- The persistent store: readiness of the process-wide handle plus the two
collections (`projects` and `project_plans`). -/
structure DB where
  ready : Bool
  projects : List Doc
  plans : List Doc

/-! The persistence gateway.  The repository contains two near-duplicate
copies of `MongoDB` (`src/app/core/mongodb.py` and
the `planner-agent-` copy of `app/core/mongodb.py`); functions that differ between
the copies are embedded once per copy in the namespaces `SrcApp` and
`SrcPA`, identical functions once in `MongoDB`. -/

namespace SrcApp

/-- Embeds `MongoDB.get_project` from `src/app/core/mongodb.py` (lines
82-97).  `ObjectId(project_id)` raises `InvalidId` on a malformed id and the
`except` clause logs and re-raises; a missing connection raises the 500
`HTTPException`; a found project is returned with `_id` stringified (ids are
already strings in the model); an absent project yields Python `None`. -/
def get_project (db : DB) (project_id : String) : Except PyExc JVal :=
  if db.ready = false then .error (.httpExc 500 "Database connection not initialized")
  else if isValidObjectId project_id = false then .error .invalidId
  else
    match findDoc db.projects "_id" project_id with
    | some p => .ok (.obj (setKey p "_id" (.str project_id)))
    | none => .ok .null

end SrcApp

namespace SrcPA

/-- Embeds `MongoDB.get_project` from the `planner-agent-` copy of `app/core/mongodb.py`
(lines 77-92).  Identical to the `src/app` copy except that an absent
project yields the empty dict instead of `None`. -/
def get_project (db : DB) (project_id : String) : Except PyExc JVal :=
  if db.ready = false then .error (.httpExc 500 "Database connection not initialized")
  else if isValidObjectId project_id = false then .error .invalidId
  else
    match findDoc db.projects "_id" project_id with
    | some p => .ok (.obj (setKey p "_id" (.str project_id)))
    | none => .ok (.obj [])

end SrcPA

namespace MongoDB

/-- Embeds `MongoDB.store_project_plan` (identical in both copies:
`src/app/core/mongodb.py` lines 100-120, the `planner-agent-` copy lines 95-115).  The Python mutates the caller's `plan` dict (`updated_at` always,
`created_at` only when the *input dict* lacks it) and upserts the mutated
dict with `$set` keyed on `project_id`; the mutated dict is returned here to
model the aliasing seen by callers (the Python return value `True` itself is
unused).  Item assignment on a non-dict plan raises `TypeError`; a missing
connection raises the 500 `HTTPException`; both are re-raised by the
`except` clause. -/
def store_project_plan (db : DB) (project_id : String) (plan : JVal) (now : Nat) :
    Except PyExc (JVal × DB) :=
  if db.ready = false then .error (.httpExc 500 "Database connection not initialized")
  else
    match plan with
    | .obj kvs =>
        let kvs1 := setKey kvs "updated_at" (.num now)
        let kvs2 := if hasKey kvs1 "created_at" then kvs1 else setKey kvs1 "created_at" (.num now)
        .ok (.obj kvs2, { db with plans := mongoUpsert db.plans "project_id" project_id kvs2 })
    | _ => .error .typeErr

/-- Embeds `MongoDB.update_project` from the `planner-agent-` copy of `app/core/mongodb.py`
(lines 199-238): validity check via `ObjectId` (raising `InvalidId`,
re-raised by its dedicated `except` clause), `updated_at` stamped into the
update document, `find_one_and_update` with `ReturnDocument.AFTER`; `None`
when no project matches.  The opportunistic `tasks` ObjectId conversion is
the identity in the model (ids are strings). -/
def update_project (db : DB) (project_id : String) (update_data : Doc) (now : Nat) :
    Except PyExc (Option JVal) × DB :=
  if db.ready = false then (.error (.httpExc 500 "Database connection not initialized"), db)
  else if isValidObjectId project_id = false then (.error .invalidId, db)
  else
    let ud := setKey update_data "updated_at" (.num now)
    match findAndSet db.projects "_id" project_id ud with
    | (some d, projects') => (.ok (some (.obj d)), { db with projects := projects' })
    | (none, projects') => (.ok none, { db with projects := projects' })

/-- Embeds `MongoDB.soft_delete_project` from
the `planner-agent-` copy of `app/core/mongodb.py` (lines 241-273): same guards as
`update_project`, with the fixed update document
`{"status": "deleted", "updated_at": now}`. -/
def soft_delete_project (db : DB) (project_id : String) (now : Nat) :
    Except PyExc (Option JVal) × DB :=
  if db.ready = false then (.error (.httpExc 500 "Database connection not initialized"), db)
  else if isValidObjectId project_id = false then (.error .invalidId, db)
  else
    let delete_update : Doc := [("status", .str "deleted"), ("updated_at", .num now)]
    match findAndSet db.projects "_id" project_id delete_update with
    | (some d, projects') => (.ok (some (.obj d)), { db with projects := projects' })
    | (none, projects') => (.ok none, { db with projects := projects' })

end MongoDB

namespace PlannerAgent

/-- Embeds the `call_with_retry` closures of `generate_project_plan`
(planner.py lines 110-121) and `refine_project_tasks` (lines 235-244): both
are decorated with `tenacity.retry(stop=stop_after_attempt(3),
wait=wait_exponential(multiplier=1, min=4, max=60),
retry=retry_if_exception_type((RateLimitError, APIError)))`.  The first
argument is the remaining attempt budget (3 at the top-level call); the
returned `Nat` counts provider invocations actually made.  A transient
error with budget left retries; with the budget exhausted tenacity raises
`RetryError` around the last error; any other exception propagates at
once. -/
def call_with_retry : Nat → List LLMOutcome → Except PyExc String × Nat
  | _, [] => (.error (.pyExc "no provider outcome"), 0)
  | 0, _ => (.error (.pyExc "no attempt budget"), 0)
  | n + 1, o :: rest =>
      match o with
      | .success t => (.ok t, 1)
      | .otherError m => (.error (.pyExc m), 1)
      | tr =>
          if n = 0 then (.error (.retryErr tr), 1)
          else
            let (r, c) := call_with_retry n rest
            (r, c + 1)

/-- The backoff `tenacity.wait_exponential(multiplier=1, min=4, max=60)`
computes before retry number `attempt_number + 1`:
`clamp(multiplier * 2 ^ (attempt_number - 1), min, max)`. -/
def retry_wait (attempt_number : Nat) : Nat :=
  min 60 (max 4 (2 ^ (attempt_number - 1)))

/-- The four required top-level plan fields (planner.py lines 147-152). -/
def required_fields : List String :=
  ["project_summary", "key_features_deliverables", "major_milestones", "high_level_tasks"]

/-- Python `field in plan_json` for an arbitrary parsed JSON value: key
membership for dicts, element equality for lists, substring for strings,
`TypeError` otherwise. -/
def pyContains (v : JVal) (field : String) : Except PyExc Bool :=
  match v with
  | .obj kvs => .ok (hasKey kvs field)
  | .arr xs => .ok (xs.any (fun x => match x with | .str s => s = field | _ => false))
  | .str s => .ok (strSubstr field.data s.data)
  | _ => .error .typeErr

/-- The list comprehension
`[field for field in fields if field not in plan]` (planner.py line 154). -/
def missingFields (plan : JVal) : List String → Except PyExc (List String)
  | [] => .ok []
  | f :: fs =>
      match pyContains plan f with
      | .error e => .error e
      | .ok b =>
          match missingFields plan fs with
          | .error e => .error e
          | .ok rest => .ok (if b then rest else f :: rest)

/-- The repair-and-parse step of `generate_project_plan` (planner.py lines
130-144): strip the response, slice between the first brace and the last
brace when it does not start with a brace, `json.loads`, and raise the
`MalformedPlanResponse` `ValueError` when parsing fails. -/
def parsePlanResponse (response : String) : Except PyExc JVal :=
  match jsonParseL (cleanWrapped '{' '}' response.data) with
  | some v => .ok v
  | none => .error .malformedPlan

/-- The required-field validation of `generate_project_plan` (planner.py
lines 146-156): raise `IncompletePlan` naming the missing fields when any
are absent. -/
def validateStep (plan : JVal) : Except PyExc Unit :=
  match missingFields plan required_fields with
  | .error e => .error e
  | .ok [] => .ok ()
  | .ok ms => .error (.incompletePlan ms)

/-- The inner `try` body of `generate_project_plan` (planner.py lines
109-163): retry-wrapped LLM call, response-shape check, repair-and-parse,
required-field validation, then storage keyed by `str(project_details["_id"])`.
Every raised exception surfaces here as `Except.error`. -/
def generate_pipeline (db : DB) (pd : Doc) (outcomes : List LLMOutcome) (now : Nat) :
    Except PyExc (JVal × DB) :=
  match (call_with_retry 3 outcomes).1 with
  | .error e => .error e
  | .ok response =>
      if response.data.isEmpty then .error .invalidResponseFormat
      else
        match parsePlanResponse response with
        | .error e => .error e
        | .ok plan_json =>
            match validateStep plan_json with
            | .error e => .error e
            | .ok _ =>
                match lookupKey pd "_id" with
                | none => .error .keyErr
                | some idv => MongoDB.store_project_plan db (pyStr idv) plan_json now

/-- Embeds `PlannerAgent.generate_project_plan` (planner.py lines 43-177).
The context extraction and prompt rendering (lines 46-106) only feed the
prompt text, so they do not influence the modelled result; a non-dict
`project_details` makes the `.get` calls raise inside the outer `try`.  The
inner and outer `except Exception` handlers convert any failure into an
`{error, message}` dict instead of propagating. -/
def generate_project_plan (db : DB) (project_details : JVal)
    (outcomes : List LLMOutcome) (now : Nat) : JVal × DB :=
  match project_details with
  | .obj pd =>
      match generate_pipeline db pd outcomes now with
      | .ok (plan, db') => (plan, db')
      | .error e =>
          (.obj [("error", .str (pyStrExc e)),
                 ("message", .str "Failed to generate project plan.")], db)
  | _ =>
      (.obj [("error", .str (pyStrExc .typeErr)),
             ("message", .str "Failed to set up project plan generation.")], db)

/-- The `try` body of `refine_project_tasks` (planner.py lines 181-278):
load the stored plan (or synthesize a fresh in-memory one), retry-wrapped
LLM call, bracket repair-and-parse raising `MalformedRefinementResponse` on
failure, wholesale replacement of `high_level_tasks`, `updated_at` refresh,
upsert, and the composite result.  A missing connection raises on the
`find_one` attribute access. -/
def refine_pipeline (db : DB) (project_id : String) (tasks : List JVal)
    (outcomes : List LLMOutcome) (now : Nat) : Except PyExc (JVal × DB) :=
  if db.ready = false then .error .typeErr
  else
    let project_plan : Doc :=
      match findDoc db.plans "project_id" project_id with
      | some p => p
      | none => [("project_id", .str project_id), ("high_level_tasks", .arr tasks),
                 ("created_at", .num now), ("updated_at", .num now)]
    match (call_with_retry 3 outcomes).1 with
    | .error e => .error e
    | .ok response =>
        match jsonParseL (cleanWrapped '[' ']' response.data) with
        | none => .error .malformedRefinement
        | some refined =>
            let plan1 := setKey (setKey project_plan "high_level_tasks" refined)
                           "updated_at" (.num now)
            .ok (.obj [("project_id", .str project_id), ("refined_tasks", refined),
                       ("original_tasks", .arr tasks)],
                 { db with plans := mongoUpsert db.plans "project_id" project_id plan1 })

/-- Embeds `PlannerAgent.refine_project_tasks` (planner.py lines 179-285):
the outer `except Exception` converts any failure into an
`{error, message}` dict instead of propagating. -/
def refine_project_tasks (db : DB) (project_id : String) (tasks : List JVal)
    (outcomes : List LLMOutcome) (now : Nat) : JVal × DB :=
  match refine_pipeline db project_id tasks outcomes now with
  | .ok (res, db') => (res, db')
  | .error e =>
      (.obj [("error", .str (pyStrExc e)),
             ("message", .str "Failed to refine project tasks.")], db)

end PlannerAgent

namespace Routes

/-- HTTP layer result: a JSON body or an `HTTPException(status, detail)`. -/
inductive HttpResp where
  | ok (body : JVal)
  | err (status : Nat) (detail : String)

/-- The project-context construction of `generate_plan_for_existing_project`
(routes.py lines 146-165): field-by-field defaults when the project record
exists, a fixed placeholder context when it does not. -/
def mkProjectContext (project : Option Doc) (project_id : String) : JVal :=
  match project with
  | some p =>
      .obj [("_id", .str project_id),
            ("title", (lookupKey p "title").getD (.str "Untitled Project")),
            ("description", (lookupKey p "description").getD (.str "Project details not available")),
            ("status", (lookupKey p "status").getD (.str "planning")),
            ("tags", (lookupKey p "tags").getD (.arr [])),
            ("team", (lookupKey p "team").getD (.arr [])),
            ("deadline", (lookupKey p "deadline").getD .null),
            ("resources", (lookupKey p "resources").getD (.arr [])),
            ("progress", (lookupKey p "progress").getD (.num 0))]
  | none =>
      .obj [("_id", .str project_id),
            ("title", .str "Untitled Project"),
            ("description", .str "Project details to be determined"),
            ("status", .str "planning"),
            ("tags", .arr []),
            ("team", .arr []),
            ("progress", .num 0)]

/-- The minimum-plan-structure normalization of the plan route handler
(routes.py lines 178-184): keep exactly the four required fields,
defaulting each absent one. -/
def normalize_plan (kvs : Doc) : Doc :=
  [("project_summary",
    (lookupKey kvs "project_summary").getD (.str "Project summary to be determined")),
   ("key_features_deliverables",
    (lookupKey kvs "key_features_deliverables").getD (.arr [])),
   ("major_milestones",
    (lookupKey kvs "major_milestones").getD (.arr [])),
   ("high_level_tasks",
    (lookupKey kvs "high_level_tasks").getD (.arr []))]

/-- Embeds the `GET /projects/\x7bproject_id\x7d/plan` handler
`generate_plan_for_existing_project` (routes.py lines 118-196): readiness
check (500), ObjectId validity (400), cached-plan short-circuit (with `_id`
deleted), context construction, plan generation, error-field check (500),
normalization to the four required fields with defaults, storage, and the
plan as the body.  The handler never produces a 404. -/
def generate_plan_for_existing_project (db : DB) (project_id : String)
    (outcomes : List LLMOutcome) (now : Nat) : HttpResp × DB :=
  if db.ready = false then (.err 500 "Database connection not initialized", db)
  else if isValidObjectId project_id = false then (.err 400 "Invalid project ID format", db)
  else
    match findDoc db.plans "project_id" project_id with
    | some existing_plan => (.ok (.obj (delKey existing_plan "_id")), db)
    | none =>
        match PlannerAgent.generate_project_plan db
            (mkProjectContext (findDoc db.projects "_id" project_id) project_id)
            outcomes now with
        | (plan, db1) =>
            match plan with
            | .obj kvs =>
                if hasKey kvs "error" then
                  (.err 500 (match lookupKey kvs "message" with
                             | some (.str m) => m
                             | _ => "Failed to generate plan"), db1)
                else
                  match MongoDB.store_project_plan db1 project_id (.obj (normalize_plan kvs)) now with
                  | .ok (stamped, db2) => (.ok stamped, db2)
                  | .error e => (.err 500 (pyStrExc e), db1)
            | _ => (.err 500 "Invalid plan format generated", db1)

end Routes

/-! Association-list (Python dict / Mongo document) lemmas. -/

theorem hasKey_eq_isSome (d : Doc) (k : String) :
    hasKey d k = (lookupKey d k).isSome := by
  induction d with
  | nil => simp [hasKey, lookupKey]
  | cons p rest ih =>
      obtain ⟨k', v⟩ := p
      by_cases h : k' = k <;> simp [hasKey, lookupKey, h, ih]

theorem lookupKey_setKey_self (d : Doc) (k : String) (v : JVal) :
    lookupKey (setKey d k v) k = some v := by
  induction d with
  | nil => simp [setKey, lookupKey]
  | cons p rest ih =>
      obtain ⟨k', v'⟩ := p
      by_cases h : k' = k <;> simp [setKey, lookupKey, h, ih]

theorem lookupKey_setKey_ne (d : Doc) (k k' : String) (v : JVal) (h : k ≠ k') :
    lookupKey (setKey d k v) k' = lookupKey d k' := by
  induction d with
  | nil => simp [setKey, lookupKey, h]
  | cons p rest ih =>
      obtain ⟨k₀, v₀⟩ := p
      by_cases h₀ : k₀ = k
      · subst h₀
        simp only [setKey, if_pos rfl]
        simp [lookupKey, h]
      · simp only [setKey, if_neg h₀, lookupKey]
        by_cases h₁ : k₀ = k' <;> simp [h₁, ih]

theorem hasKey_setKey_self (d : Doc) (k : String) (v : JVal) :
    hasKey (setKey d k v) k = true := by
  rw [hasKey_eq_isSome, lookupKey_setKey_self]
  rfl

theorem hasKey_setKey_ne (d : Doc) (k k' : String) (v : JVal) (h : k ≠ k') :
    hasKey (setKey d k v) k' = hasKey d k' := by
  rw [hasKey_eq_isSome, hasKey_eq_isSome, lookupKey_setKey_ne d k k' v h]

theorem mem_keys_of_lookupKey (d : Doc) (k : String) (v : JVal)
    (h : lookupKey d k = some v) : k ∈ d.map Prod.fst := by
  induction d with
  | nil => simp [lookupKey] at h
  | cons p rest ih =>
      obtain ⟨k', v'⟩ := p
      by_cases h' : k' = k
      · subst h'; simp
      · simp [lookupKey, h'] at h
        simp [ih h]

theorem lookupKey_eq_none_of_not_mem (d : Doc) (k : String)
    (h : k ∉ d.map Prod.fst) : lookupKey d k = none := by
  cases hh : lookupKey d k with
  | none => rfl
  | some v => exact absurd (mem_keys_of_lookupKey d k v hh) h

theorem hasKey_eq_false_of_not_mem (d : Doc) (k : String)
    (h : k ∉ d.map Prod.fst) : hasKey d k = false := by
  rw [hasKey_eq_isSome, lookupKey_eq_none_of_not_mem d k h]
  rfl

theorem lookupKey_isSome_of_mem (d : Doc) (k : String)
    (h : k ∈ d.map Prod.fst) : (lookupKey d k).isSome = true := by
  induction d with
  | nil => simp at h
  | cons p rest ih =>
      obtain ⟨k', v'⟩ := p
      by_cases h' : k' = k
      · subst h'; simp [lookupKey]
      · rw [List.map_cons] at h
        rcases List.mem_cons.mp h with h2 | h2
        · exact absurd h2.symm h'
        · simp [lookupKey, h', ih h2]

theorem keys_setKey_of_hasKey (d : Doc) (k : String) (v : JVal)
    (h : hasKey d k = true) : (setKey d k v).map Prod.fst = d.map Prod.fst := by
  induction d with
  | nil => simp [hasKey] at h
  | cons p rest ih =>
      obtain ⟨k', v'⟩ := p
      by_cases h' : k' = k
      · subst h'; simp [setKey]
      · simp [hasKey, h'] at h
        simp [setKey, h', ih h]

theorem keys_setKey_of_not_hasKey (d : Doc) (k : String) (v : JVal)
    (h : hasKey d k = false) :
    (setKey d k v).map Prod.fst = d.map Prod.fst ++ [k] := by
  induction d with
  | nil => simp [setKey]
  | cons p rest ih =>
      obtain ⟨k', v'⟩ := p
      by_cases h' : k' = k
      · simp [hasKey, h'] at h
      · simp [hasKey, h'] at h
        simp [setKey, h', ih h]

theorem keysNodup_setKey (d : Doc) (k : String) (v : JVal) (h : keysNodup d) :
    keysNodup (setKey d k v) := by
  cases hh : hasKey d k with
  | true => unfold keysNodup; rw [keys_setKey_of_hasKey d k v hh]; exact h
  | false =>
      unfold keysNodup
      rw [keys_setKey_of_not_hasKey d k v hh]
      rw [List.nodup_append]
      refine ⟨h, List.nodup_singleton k, ?_⟩
      intro a ha hb
      simp at hb
      subst hb
      rw [hasKey_eq_isSome] at hh
      rw [lookupKey_isSome_of_mem d a ha] at hh
      exact absurd hh (by simp)

/-- A field absent from the `$set` document is untouched by the merge. -/
theorem lookupKey_setKeys_not_mem (d s : Doc) (f : String)
    (hf : hasKey s f = false) :
    lookupKey (setKeys d s) f = lookupKey d f := by
  induction s generalizing d with
  | nil => simp [setKeys]
  | cons p rest ih =>
      obtain ⟨k, v⟩ := p
      have hk : k ≠ f := by
        intro h
        rw [h] at hf
        simp [hasKey] at hf
      have hrest : hasKey rest f = false := by simpa [hasKey, hk] using hf
      simp only [setKeys]
      rw [ih (setKey d k v) hrest]
      exact lookupKey_setKey_ne d k f v hk

/-- A field set by the `$set` document reads back from the merged document
with the `$set` document's value (keys of a Python dict are unique). -/
theorem lookupKey_setKeys_mem (d s : Doc) (f : String)
    (hs : keysNodup s) (hf : hasKey s f = true) :
    lookupKey (setKeys d s) f = lookupKey s f := by
  induction s generalizing d with
  | nil => simp [hasKey] at hf
  | cons p rest ih =>
      obtain ⟨k, v⟩ := p
      have hs2 : k ∉ rest.map Prod.fst ∧ (rest.map Prod.fst).Nodup := by
        unfold keysNodup at hs
        rw [List.map_cons] at hs
        exact List.nodup_cons.mp hs
      by_cases hk : k = f
      · subst hk
        have hrest : hasKey rest k = false := hasKey_eq_false_of_not_mem rest k hs2.1
        simp only [setKeys, lookupKey, if_pos rfl]
        rw [lookupKey_setKeys_not_mem (setKey d k v) rest k hrest]
        exact lookupKey_setKey_self d k v
      · have hf' : hasKey rest f = true := by simpa [hasKey, hk] using hf
        simp only [setKeys, lookupKey, if_neg hk]
        exact ih (setKey d k v) hs2.2 hf'

theorem keyIsStr_eq_true_iff (d : Doc) (k v : String) :
    keyIsStr d k v = true ↔ lookupKey d k = some (.str v) := by
  unfold keyIsStr
  cases h : lookupKey d k with
  | none => simp
  | some w => cases w <;> simp

theorem findDoc_some_keyIsStr (l : List Doc) (k v : String) (r : Doc)
    (h : findDoc l k v = some r) : keyIsStr r k v = true := by
  induction l with
  | nil => simp [findDoc] at h
  | cons d rest ih =>
      by_cases hd : keyIsStr d k v = true
      · simp [findDoc, hd] at h
        rw [← h]; exact hd
      · simp [findDoc, hd] at h
        exact ih h

/-- After an upsert, the first document matching the filter is the merged
(or freshly inserted) document, provided the merge preserves the filter
field. -/
theorem findDoc_mongoUpsert (l : List Doc) (k v : String) (s : Doc)
    (hmatch : ∀ d : Doc, keyIsStr d k v = true → keyIsStr (setKeys d s) k v = true)
    (hnew : keyIsStr (setKeys [(k, .str v)] s) k v = true) :
    findDoc (mongoUpsert l k v s) k v =
      some (match findDoc l k v with
            | some r => setKeys r s
            | none => setKeys [(k, .str v)] s) := by
  induction l with
  | nil => simp [mongoUpsert, findDoc, hnew]
  | cons d rest ih =>
      by_cases hd : keyIsStr d k v = true
      · simp [mongoUpsert, findDoc, hd, hmatch d hd]
      · simp [mongoUpsert, findDoc, hd, ih]

/-- The `$set` document leaves the filter field alone when it does not
mention it. -/
theorem keyIsStr_setKeys_of_not_mem (d s : Doc) (k v : String)
    (hs : hasKey s k = false) (h : keyIsStr d k v = true) :
    keyIsStr (setKeys d s) k v = true := by
  rw [keyIsStr_eq_true_iff] at h ⊢
  rw [lookupKey_setKeys_not_mem d s k hs]
  exact h

theorem findAndSet_of_findDoc_some (l : List Doc) (k v : String) (ud : Doc) (r : Doc)
    (h : findDoc l k v = some r) :
    (findAndSet l k v ud).1 = some (setKeys r ud)
    ∧ (keyIsStr (setKeys r ud) k v = true →
        findDoc (findAndSet l k v ud).2 k v = some (setKeys r ud)) := by
  induction l with
  | nil => simp [findDoc] at h
  | cons d rest ih =>
      by_cases hd : keyIsStr d k v = true
      · simp [findDoc, hd] at h
        subst h
        constructor
        · simp [findAndSet, hd]
        · intro hpres
          simp [findAndSet, hd, findDoc, hpres]
      · simp [findDoc, hd] at h
        have ihh := ih h
        constructor
        · simp [findAndSet, hd]
          exact ihh.1
        · intro hpres
          simp [findAndSet, hd, findDoc]
          exact ihh.2 hpres

theorem findAndSet_of_findDoc_none (l : List Doc) (k v : String) (ud : Doc)
    (h : findDoc l k v = none) : findAndSet l k v ud = (none, l) := by
  induction l with
  | nil => simp [findAndSet]
  | cons d rest ih =>
      by_cases hd : keyIsStr d k v = true
      · simp [findDoc, hd] at h
      · simp [findDoc, hd] at h
        simp [findAndSet, hd, ih h]

theorem call_with_retry_count_le (n : Nat) (outcomes : List LLMOutcome) :
    (PlannerAgent.call_with_retry n outcomes).2 ≤ n := by
  induction n generalizing outcomes with
  | zero => cases outcomes <;> simp [PlannerAgent.call_with_retry]
  | succ n ih =>
      cases outcomes with
      | nil => simp [PlannerAgent.call_with_retry]
      | cons o rest =>
          cases o with
          | success t => simp [PlannerAgent.call_with_retry]
          | otherError m => simp [PlannerAgent.call_with_retry]
          | rateLimitError =>
              by_cases hn : n = 0
              · simp [PlannerAgent.call_with_retry, hn]
              · simp [PlannerAgent.call_with_retry, hn]
                have := ih rest
                omega
          | apiError =>
              by_cases hn : n = 0
              · simp [PlannerAgent.call_with_retry, hn]
              · simp [PlannerAgent.call_with_retry, hn]
                have := ih rest
                omega

theorem missingFields_obj (kvs : Doc) (fs : List String) :
    PlannerAgent.missingFields (.obj kvs) fs = .ok (fs.filter (fun f => !hasKey kvs f)) := by
  induction fs with
  | nil => simp [PlannerAgent.missingFields]
  | cons f rest ih =>
      simp only [PlannerAgent.missingFields, PlannerAgent.pyContains, ih]
      cases h : hasKey kvs f <;> simp [List.filter_cons, h]

theorem filter_not_eq_nil_iff_all (fs : List String) (p : String → Bool) :
    fs.filter (fun f => !p f) = [] ↔ fs.all p = true := by
  rw [List.filter_eq_nil_iff, List.all_eq_true]
  constructor
  · intro h f hf
    have := h f hf
    simpa using this
  · intro h f hf
    simpa using h f hf

/-- Claim C4: for every parsed plan object, the Plan Synthesizer's
validation succeeds exactly when all four required top-level fields are
present (their values are never inspected, so empty lists pass), and
otherwise fails with `IncompletePlan` naming exactly the required fields
that are absent, in the fixed field order. -/
theorem claim_C4 (kvs : Doc) :
    (PlannerAgent.validateStep (.obj kvs) = .ok () ↔
        PlannerAgent.required_fields.all (hasKey kvs) = true)
    ∧ (∀ ms : List String,
        PlannerAgent.validateStep (.obj kvs) = .error (.incompletePlan ms) ↔
        (ms = PlannerAgent.required_fields.filter (fun f => !hasKey kvs f) ∧ ms ≠ [])) := by
  have hm := missingFields_obj kvs PlannerAgent.required_fields
  constructor
  · rw [← filter_not_eq_nil_iff_all]
    unfold PlannerAgent.validateStep
    rw [hm]
    cases hfil : PlannerAgent.required_fields.filter (fun f => !hasKey kvs f) with
    | nil => simp
    | cons m rest => simp
  · intro ms
    unfold PlannerAgent.validateStep
    rw [hm]
    cases hfil : PlannerAgent.required_fields.filter (fun f => !hasKey kvs f) with
    | nil => simp
    | cons m rest =>
        simp only []
        constructor
        · intro h
          simp at h
          exact ⟨h.symm, by simp [← h]⟩
        · rintro ⟨h1, _⟩
          subst h1
          rfl

/-- Claim C5: the retry wrapper shared by the Synthesizer and the Refiner
invokes the provider at most 3 times; a non-transient error propagates
after a single call with no retry; two transient failures followed by a
success make exactly 3 calls and return the success; three transient
failures make exactly 3 calls and raise.  The backoff between attempts is
the clamped exponential `retry_wait`. -/
theorem claim_C5 :
    (∀ outcomes : List LLMOutcome, (PlannerAgent.call_with_retry 3 outcomes).2 ≤ 3)
    ∧ (∀ (m : String) (rest : List LLMOutcome),
        PlannerAgent.call_with_retry 3 (.otherError m :: rest) = (.error (.pyExc m), 1))
    ∧ (∀ (o₁ o₂ : LLMOutcome) (t : String) (rest : List LLMOutcome),
        o₁.isTransient = true → o₂.isTransient = true →
        PlannerAgent.call_with_retry 3 (o₁ :: o₂ :: .success t :: rest) = (.ok t, 3))
    ∧ (∀ (o₁ o₂ o₃ : LLMOutcome) (rest : List LLMOutcome),
        o₁.isTransient = true → o₂.isTransient = true → o₃.isTransient = true →
        PlannerAgent.call_with_retry 3 (o₁ :: o₂ :: o₃ :: rest)
          = (.error (.retryErr o₃), 3))
    ∧ (∀ a : Nat, 4 ≤ PlannerAgent.retry_wait a ∧ PlannerAgent.retry_wait a ≤ 60) := by
  refine ⟨fun outcomes => call_with_retry_count_le 3 outcomes, ?_, ?_, ?_, ?_⟩
  · intro m rest; rfl
  · intro o₁ o₂ t rest h₁ h₂
    cases o₁ with
    | success _ => simp [LLMOutcome.isTransient] at h₁
    | otherError _ => simp [LLMOutcome.isTransient] at h₁
    | rateLimitError =>
        cases o₂ with
        | success _ => simp [LLMOutcome.isTransient] at h₂
        | otherError _ => simp [LLMOutcome.isTransient] at h₂
        | rateLimitError => rfl
        | apiError => rfl
    | apiError =>
        cases o₂ with
        | success _ => simp [LLMOutcome.isTransient] at h₂
        | otherError _ => simp [LLMOutcome.isTransient] at h₂
        | rateLimitError => rfl
        | apiError => rfl
  · intro o₁ o₂ o₃ rest h₁ h₂ h₃
    cases o₁ with
    | success _ => simp [LLMOutcome.isTransient] at h₁
    | otherError _ => simp [LLMOutcome.isTransient] at h₁
    | rateLimitError =>
        cases o₂ with
        | success _ => simp [LLMOutcome.isTransient] at h₂
        | otherError _ => simp [LLMOutcome.isTransient] at h₂
        | rateLimitError =>
            cases o₃ with
            | success _ => simp [LLMOutcome.isTransient] at h₃
            | otherError _ => simp [LLMOutcome.isTransient] at h₃
            | rateLimitError => rfl
            | apiError => rfl
        | apiError =>
            cases o₃ with
            | success _ => simp [LLMOutcome.isTransient] at h₃
            | otherError _ => simp [LLMOutcome.isTransient] at h₃
            | rateLimitError => rfl
            | apiError => rfl
    | apiError =>
        cases o₂ with
        | success _ => simp [LLMOutcome.isTransient] at h₂
        | otherError _ => simp [LLMOutcome.isTransient] at h₂
        | rateLimitError =>
            cases o₃ with
            | success _ => simp [LLMOutcome.isTransient] at h₃
            | otherError _ => simp [LLMOutcome.isTransient] at h₃
            | rateLimitError => rfl
            | apiError => rfl
        | apiError =>
            cases o₃ with
            | success _ => simp [LLMOutcome.isTransient] at h₃
            | otherError _ => simp [LLMOutcome.isTransient] at h₃
            | rateLimitError => rfl
            | apiError => rfl
  · intro a
    unfold PlannerAgent.retry_wait
    exact ⟨Nat.le_min.mpr ⟨by omega, Nat.le_max_left 4 _⟩, Nat.min_le_left 60 _⟩

/-- Witness for claim C5 at concrete provider outcomes. -/
theorem claim_C5_witness :
    (PlannerAgent.call_with_retry 3 [.rateLimitError, .apiError, .success "ok"]).2 ≤ 3
    ∧ PlannerAgent.call_with_retry 3 [.otherError "boom"] = (.error (.pyExc "boom"), 1)
    ∧ PlannerAgent.call_with_retry 3 [.rateLimitError, .apiError, .success "ok"] = (.ok "ok", 3)
    ∧ PlannerAgent.call_with_retry 3 [.rateLimitError, .rateLimitError, .rateLimitError]
        = (.error (.retryErr .rateLimitError), 3)
    ∧ 4 ≤ PlannerAgent.retry_wait 1 ∧ PlannerAgent.retry_wait 1 ≤ 60 :=
  ⟨claim_C5.1 _, claim_C5.2.1 "boom" [], claim_C5.2.2.1 _ _ "ok" [] rfl rfl,
   claim_C5.2.2.2.1 _ _ _ [] rfl rfl rfl, (claim_C5.2.2.2.2 1).1, (claim_C5.2.2.2.2 1).2⟩

/-- After an upsert whose `$set` document keeps the filter field matching,
the row found under the filter reads back every `$set` field with the
`$set` document's value. -/
theorem upsert_row_lookup (plans : List Doc) (k v : String) (s : Doc)
    (hnodup : keysNodup s)
    (hkeep : ∀ d : Doc, keyIsStr d k v = true → keyIsStr (setKeys d s) k v = true)
    (hnew : keyIsStr (setKeys [(k, .str v)] s) k v = true) :
    ∃ row, findDoc (mongoUpsert plans k v s) k v = some row
      ∧ ∀ f, hasKey s f = true → lookupKey row f = lookupKey s f := by
  have h := findDoc_mongoUpsert plans k v s hkeep hnew
  cases hf : findDoc plans k v with
  | some r =>
      rw [hf] at h
      exact ⟨setKeys r s, h, fun f hfk => lookupKey_setKeys_mem r s f hnodup hfk⟩
  | none =>
      rw [hf] at h
      exact ⟨setKeys [(k, .str v)] s, h,
             fun f hfk => lookupKey_setKeys_mem _ s f hnodup hfk⟩

/-- Special case of `upsert_row_lookup` for `$set` documents that do not
mention the filter key at all. -/
theorem upsert_row_lookup_of_no_filter_key (plans : List Doc) (k v : String) (s : Doc)
    (hnodup : keysNodup s) (hpid : hasKey s k = false) :
    ∃ row, findDoc (mongoUpsert plans k v s) k v = some row
      ∧ ∀ f, hasKey s f = true → lookupKey row f = lookupKey s f := by
  refine upsert_row_lookup plans k v s hnodup
    (fun d hd => keyIsStr_setKeys_of_not_mem d s k v hpid hd) ?_
  rw [keyIsStr_eq_true_iff, lookupKey_setKeys_not_mem _ s k hpid]
  simp [lookupKey]

/-- Claim C1 (amended): `storePlan` always stamps `updated_at` with the
current time but decides `created_at` by inspecting the input plan dict,
not the target record: when the input dict lacks `created_at`, the stored
row's `created_at` is overwritten with the current time even if a row
already existed; a caller-supplied `created_at` is stored as given.
First-write-wins for creation time therefore holds only when the caller
passes the original `created_at` back in; upserting twice with fresh plan
dicts resets `created_at` to the second call's time. -/
theorem claim_C1 (db : DB) (project_id : String) (kvs : Doc) (now : Nat)
    (hready : db.ready = true)
    (hnodup : keysNodup kvs)
    (hpid : hasKey kvs "project_id" = false) :
    ∃ stamped db',
      MongoDB.store_project_plan db project_id (.obj kvs) now = .ok (.obj stamped, db')
      ∧ lookupKey stamped "updated_at" = some (.num now)
      ∧ (hasKey kvs "created_at" = false → lookupKey stamped "created_at" = some (.num now))
      ∧ (∀ v, lookupKey kvs "created_at" = some v → lookupKey stamped "created_at" = some v)
      ∧ ∃ row, findDoc db'.plans "project_id" project_id = some row
          ∧ lookupKey row "created_at" = lookupKey stamped "created_at"
          ∧ lookupKey row "updated_at" = some (.num now) := by
  by_cases hc : hasKey kvs "created_at" = true
  · -- the input dict already carries created_at: only updated_at is stamped
    have hc1 : hasKey (setKey kvs "updated_at" (.num now)) "created_at" = true := by
      rw [hasKey_setKey_ne kvs "updated_at" "created_at" _ (by decide)]; exact hc
    have hnodup1 : keysNodup (setKey kvs "updated_at" (.num now)) :=
      keysNodup_setKey kvs _ _ hnodup
    have hpid1 : hasKey (setKey kvs "updated_at" (.num now)) "project_id" = false := by
      rw [hasKey_setKey_ne kvs "updated_at" "project_id" _ (by decide)]; exact hpid
    have hu1 : lookupKey (setKey kvs "updated_at" (.num now)) "updated_at" = some (.num now) :=
      lookupKey_setKey_self kvs _ _
    obtain ⟨row, hrow, hrowf⟩ :=
      upsert_row_lookup_of_no_filter_key db.plans "project_id" project_id
        (setKey kvs "updated_at" (.num now)) hnodup1 hpid1
    refine ⟨setKey kvs "updated_at" (.num now), { db with plans := mongoUpsert db.plans "project_id" project_id (setKey kvs "updated_at" (.num now)) }, ?_, hu1, ?_, ?_, row, hrow, ?_, ?_⟩
    · unfold MongoDB.store_project_plan
      rw [hready]
      simp [hc1]
    · intro h
      rw [h] at hc
      exact (Bool.false_ne_true hc).elim
    · intro v hv
      rw [lookupKey_setKey_ne kvs "updated_at" "created_at" _ (by decide)]
      exact hv
    · exact hrowf "created_at" hc1
    · rw [hrowf "updated_at" (hasKey_setKey_self kvs _ _)]
      exact hu1
  · -- the input dict lacks created_at: both timestamps are stamped with now
    have hcf : hasKey kvs "created_at" = false := by
      cases h : hasKey kvs "created_at" with
      | false => rfl
      | true => exact absurd h hc
    have hc1 : hasKey (setKey kvs "updated_at" (.num now)) "created_at" = false := by
      rw [hasKey_setKey_ne kvs "updated_at" "created_at" _ (by decide)]; exact hcf
    have hnodup2 : keysNodup (setKey (setKey kvs "updated_at" (.num now)) "created_at" (.num now)) :=
      keysNodup_setKey _ _ _ (keysNodup_setKey kvs _ _ hnodup)
    have hpid2 : hasKey (setKey (setKey kvs "updated_at" (.num now)) "created_at" (.num now))
        "project_id" = false := by
      rw [hasKey_setKey_ne _ "created_at" "project_id" _ (by decide),
          hasKey_setKey_ne kvs "updated_at" "project_id" _ (by decide)]
      exact hpid
    have hu2 : lookupKey (setKey (setKey kvs "updated_at" (.num now)) "created_at" (.num now))
        "updated_at" = some (.num now) := by
      rw [lookupKey_setKey_ne _ "created_at" "updated_at" _ (by decide)]
      exact lookupKey_setKey_self kvs _ _
    obtain ⟨row, hrow, hrowf⟩ :=
      upsert_row_lookup_of_no_filter_key db.plans "project_id" project_id
        (setKey (setKey kvs "updated_at" (.num now)) "created_at" (.num now)) hnodup2 hpid2
    refine ⟨setKey (setKey kvs "updated_at" (.num now)) "created_at" (.num now), { db with plans := mongoUpsert db.plans "project_id" project_id (setKey (setKey kvs "updated_at" (.num now)) "created_at" (.num now)) }, ?_, hu2, ?_, ?_, row, hrow, ?_, ?_⟩
    · unfold MongoDB.store_project_plan
      rw [hready]
      simp [hc1]
    · intro _
      exact lookupKey_setKey_self _ _ _
    · intro v hv
      rw [hasKey_eq_isSome, hv] at hcf
      exact absurd hcf (by simp)
    · exact hrowf "created_at" (hasKey_setKey_self _ _ _)
    · rw [hrowf "updated_at" ?_, hu2]
      rw [hasKey_setKey_ne _ "created_at" "updated_at" _ (by decide)]
      exact hasKey_setKey_self kvs _ _

/-- Witness for claim C1 at a concrete store and plan dict. -/
theorem claim_C1_witness :
    ∃ stamped db',
      MongoDB.store_project_plan ⟨true, [], []⟩ "p1"
          (.obj [("project_summary", .str "s")]) 1 = .ok (.obj stamped, db')
      ∧ lookupKey stamped "updated_at" = some (.num 1)
      ∧ (hasKey [("project_summary", JVal.str "s")] "created_at" = false →
          lookupKey stamped "created_at" = some (.num 1))
      ∧ (∀ v, lookupKey [("project_summary", JVal.str "s")] "created_at" = some v →
          lookupKey stamped "created_at" = some v)
      ∧ ∃ row, findDoc db'.plans "project_id" "p1" = some row
          ∧ lookupKey row "created_at" = lookupKey stamped "created_at"
          ∧ lookupKey row "updated_at" = some (.num 1) :=
  claim_C1 ⟨true, [], []⟩ "p1" [("project_summary", .str "s")] 1 rfl (by decide) rfl

/-- Counterexample to claim C1 as stated: upserting the same fresh plan dict
(no `created_at` key) twice for project "p1" at times 1 and then 2 leaves
the stored row's `created_at` equal to 2, although the first upsert wrote 1
- creation time is not first-write-wins. -/
theorem claim_C1_counterexample :
    (match MongoDB.store_project_plan ⟨true, [], []⟩ "p1"
        (.obj [("project_summary", .str "s")]) 1 with
     | .ok (_, db1) =>
        (findDoc db1.plans "project_id" "p1").bind (fun r => lookupKey r "created_at")
     | .error _ => none) = some (.num 1)
    ∧ (match MongoDB.store_project_plan ⟨true, [], []⟩ "p1"
        (.obj [("project_summary", .str "s")]) 1 with
       | .ok (_, db1) =>
          match MongoDB.store_project_plan db1 "p1" (.obj [("project_summary", .str "s")]) 2 with
          | .ok (_, db2) =>
              (findDoc db2.plans "project_id" "p1").bind (fun r => lookupKey r "created_at")
          | .error _ => none
       | .error _ => none) = some (.num 2)
    ∧ some (JVal.num 2) ≠ some (JVal.num 1) := by
  refine ⟨rfl, rfl, ?_⟩
  simp

/-- Claim C2 (amended): `getProject` returns an empty result only for a
well-formed id that matches no record (`None` in the `src/app` copy, the
empty dict in the `planner-agent-` copy, neither raising); a syntactically
invalid id makes `ObjectId(project_id)` raise `InvalidId`, which the
function re-raises instead of returning an empty result. -/
theorem claim_C2 (db : DB) (id : String) (hready : db.ready = true) :
    (isValidObjectId id = false →
        SrcApp.get_project db id = .error .invalidId
        ∧ SrcPA.get_project db id = .error .invalidId)
    ∧ (isValidObjectId id = true → findDoc db.projects "_id" id = none →
        SrcApp.get_project db id = .ok .null
        ∧ SrcPA.get_project db id = .ok (.obj [])) := by
  constructor
  · intro hv
    constructor <;> simp [SrcApp.get_project, SrcPA.get_project, hready, hv]
  · intro hv hn
    constructor <;> simp [SrcApp.get_project, SrcPA.get_project, hready, hv, hn]

/-- Witness for claim C2: a well-formed id absent from an empty store. -/
theorem claim_C2_witness :
    SrcApp.get_project ⟨true, [], []⟩ "aaaaaaaaaaaaaaaaaaaaaaaa" = .ok .null
    ∧ SrcPA.get_project ⟨true, [], []⟩ "aaaaaaaaaaaaaaaaaaaaaaaa" = .ok (.obj []) :=
  (claim_C2 ⟨true, [], []⟩ "aaaaaaaaaaaaaaaaaaaaaaaa" rfl).2 rfl rfl

/-- Counterexample to claim C2 as stated: on the syntactically invalid id
"not-a-valid-object-id" both copies of `get_project` raise `InvalidId`
rather than returning an empty result. -/
theorem claim_C2_counterexample :
    SrcApp.get_project ⟨true, [], []⟩ "not-a-valid-object-id" = .error .invalidId
    ∧ SrcPA.get_project ⟨true, [], []⟩ "not-a-valid-object-id" = .error .invalidId :=
  ⟨rfl, rfl⟩

/-- Claim C10 (amended): the two copies of `get_project` return identical
results for every found project and every error outcome, but differ when
the project is absent: the `src/app` copy returns `None` while the
`planner-agent-` copy returns the empty dict (both empty results, but not
the same value). -/
theorem claim_C10 (db : DB) (id : String) :
    SrcApp.get_project db id = SrcPA.get_project db id
    ∨ (SrcApp.get_project db id = .ok .null
        ∧ SrcPA.get_project db id = .ok (.obj [])) := by
  by_cases h1 : db.ready = false
  · left; simp [SrcApp.get_project, SrcPA.get_project, h1]
  · by_cases h2 : isValidObjectId id = false
    · left; simp [SrcApp.get_project, SrcPA.get_project, h1, h2]
    · cases hf : findDoc db.projects "_id" id with
      | some p => left; simp [SrcApp.get_project, SrcPA.get_project, h1, h2, hf]
      | none =>
          right
          constructor <;> simp [SrcApp.get_project, SrcPA.get_project, h1, h2, hf]

/-- Counterexample to claim C10 as stated: on a well-formed id absent from
an empty store the two copies return different values (`None` versus the
empty dict). -/
theorem claim_C10_counterexample :
    SrcApp.get_project ⟨true, [], []⟩ "bbbbbbbbbbbbbbbbbbbbbbbb" = .ok .null
    ∧ SrcPA.get_project ⟨true, [], []⟩ "bbbbbbbbbbbbbbbbbbbbbbbb" = .ok (.obj [])
    ∧ (Except.ok JVal.null : Except PyExc JVal) ≠ .ok (.obj []) := by
  refine ⟨rfl, rfl, ?_⟩
  intro h
  injection h with h2
  exact JVal.noConfusion h2

/-- Pair form of `findAndSet_of_findDoc_some`, naming the updated
collection. -/
theorem findAndSet_pair_of_findDoc_some (l : List Doc) (k v : String) (ud : Doc) (r : Doc)
    (h : findDoc l k v = some r) :
    ∃ coll', findAndSet l k v ud = (some (setKeys r ud), coll')
      ∧ (keyIsStr (setKeys r ud) k v = true → findDoc coll' k v = some (setKeys r ud)) := by
  have h1 := findAndSet_of_findDoc_some l k v ud r h
  refine ⟨(findAndSet l k v ud).2, ?_, h1.2⟩
  rw [← h1.1]

/-- Claim C8: soft-delete is idempotent: on an existing project it returns
the record with status "deleted" and a fresh `updated_at`, and a second
call on the same id still succeeds with status "deleted" and the new
timestamp instead of reporting not-found; a syntactically invalid id and an
absent project produce exactly the outcomes of `update_project`
(`InvalidId` raised, and `None` respectively). -/
theorem claim_C8 (db : DB) (pid : String) (d : Doc) (t1 t2 : Nat)
    (hready : db.ready = true)
    (hvalid : isValidObjectId pid = true)
    (hfound : findDoc db.projects "_id" pid = some d) :
    (∃ d1 db1 d2 db2,
      MongoDB.soft_delete_project db pid t1 = (.ok (some (.obj d1)), db1)
      ∧ lookupKey d1 "status" = some (.str "deleted")
      ∧ lookupKey d1 "updated_at" = some (.num t1)
      ∧ MongoDB.soft_delete_project db1 pid t2 = (.ok (some (.obj d2)), db2)
      ∧ lookupKey d2 "status" = some (.str "deleted")
      ∧ lookupKey d2 "updated_at" = some (.num t2))
    ∧ (∀ (db' : DB) (id : String) (ud : Doc) (t : Nat), db'.ready = true →
        (isValidObjectId id = false →
          (MongoDB.soft_delete_project db' id t).1 = .error .invalidId
          ∧ (MongoDB.update_project db' id ud t).1 = .error .invalidId)
        ∧ (isValidObjectId id = true → findDoc db'.projects "_id" id = none →
          (MongoDB.soft_delete_project db' id t).1 = .ok none
          ∧ (MongoDB.update_project db' id ud t).1 = .ok none)) := by
  constructor
  · -- idempotence on an existing record
    have hkey : lookupKey d "_id" = some (.str pid) :=
      (keyIsStr_eq_true_iff d "_id" pid).mp (findDoc_some_keyIsStr db.projects "_id" pid d hfound)
    obtain ⟨l1, hpair1, hkeep1⟩ := findAndSet_pair_of_findDoc_some db.projects "_id" pid
      [("status", .str "deleted"), ("updated_at", .num t1)] d hfound
    have hd1eq : setKeys d [("status", .str "deleted"), ("updated_at", .num t1)]
        = setKey (setKey d "status" (.str "deleted")) "updated_at" (.num t1) := rfl
    have hd1id : lookupKey (setKeys d [("status", .str "deleted"), ("updated_at", .num t1)]) "_id"
        = some (.str pid) := by
      rw [hd1eq, lookupKey_setKey_ne _ "updated_at" "_id" _ (by decide),
          lookupKey_setKey_ne _ "status" "_id" _ (by decide)]
      exact hkey
    have hd1status : lookupKey (setKeys d [("status", .str "deleted"), ("updated_at", .num t1)])
        "status" = some (.str "deleted") := by
      rw [hd1eq, lookupKey_setKey_ne _ "updated_at" "status" _ (by decide)]
      exact lookupKey_setKey_self _ _ _
    have hd1upd : lookupKey (setKeys d [("status", .str "deleted"), ("updated_at", .num t1)])
        "updated_at" = some (.num t1) := by
      rw [hd1eq]
      exact lookupKey_setKey_self _ _ _
    have hsd1 : MongoDB.soft_delete_project db pid t1
        = (.ok (some (.obj (setKeys d [("status", .str "deleted"), ("updated_at", .num t1)]))),
           { db with projects := l1 }) := by
      simp only [MongoDB.soft_delete_project, hready, hvalid, hpair1]
      simp
    have hfound2 : findDoc l1 "_id" pid
        = some (setKeys d [("status", .str "deleted"), ("updated_at", .num t1)]) := by
      refine hkeep1 ?_
      rw [keyIsStr_eq_true_iff]
      exact hd1id
    obtain ⟨l2, hpair2, _⟩ := findAndSet_pair_of_findDoc_some l1 "_id" pid
      [("status", .str "deleted"), ("updated_at", .num t2)]
      (setKeys d [("status", .str "deleted"), ("updated_at", .num t1)]) hfound2
    have hd2eq : setKeys (setKeys d [("status", .str "deleted"), ("updated_at", .num t1)])
          [("status", .str "deleted"), ("updated_at", .num t2)]
        = setKey (setKey (setKeys d [("status", .str "deleted"), ("updated_at", .num t1)])
            "status" (.str "deleted")) "updated_at" (.num t2) := rfl
    refine ⟨setKeys d [("status", .str "deleted"), ("updated_at", .num t1)],
            { db with projects := l1 },
            setKeys (setKeys d [("status", .str "deleted"), ("updated_at", .num t1)]) [("status", .str "deleted"), ("updated_at", .num t2)],
            { db with projects := l2 }, hsd1, hd1status, hd1upd, ?_, ?_, ?_⟩
    · simp only [MongoDB.soft_delete_project, hready, hvalid]
      simp only [show ({ db with projects := l1 } : DB).projects = l1 from rfl, hpair2]
      simp
    · rw [hd2eq, lookupKey_setKey_ne _ "updated_at" "status" _ (by decide)]
      exact lookupKey_setKey_self _ _ _
    · rw [hd2eq]
      exact lookupKey_setKey_self _ _ _
  · -- not-found and invalid-id outcomes match update_project
    intro db' id ud t hready'
    constructor
    · intro hv
      constructor <;>
        simp [MongoDB.soft_delete_project, MongoDB.update_project, hready', hv]
    · intro hv hn
      have hs := findAndSet_of_findDoc_none db'.projects "_id" id
        [("status", .str "deleted"), ("updated_at", .num t)] hn
      have hu := findAndSet_of_findDoc_none db'.projects "_id" id
        (setKey ud "updated_at" (.num t)) hn
      constructor
      · simp [MongoDB.soft_delete_project, hready', hv, hs]
      · simp [MongoDB.update_project, hready', hv, hu]

/-- Witness for claim C8 at a concrete one-project store. -/
theorem claim_C8_witness :
    (∃ d1 db1 d2 db2,
      MongoDB.soft_delete_project
          ⟨true, [[("_id", .str "cccccccccccccccccccccccc"), ("title", .str "t"), ("status", .str "planning")]], []⟩
          "cccccccccccccccccccccccc" 1 = (.ok (some (.obj d1)), db1)
      ∧ lookupKey d1 "status" = some (.str "deleted")
      ∧ lookupKey d1 "updated_at" = some (.num 1)
      ∧ MongoDB.soft_delete_project db1 "cccccccccccccccccccccccc" 2 = (.ok (some (.obj d2)), db2)
      ∧ lookupKey d2 "status" = some (.str "deleted")
      ∧ lookupKey d2 "updated_at" = some (.num 2))
    ∧ (∀ (db' : DB) (id : String) (ud : Doc) (t : Nat), db'.ready = true →
        (isValidObjectId id = false →
          (MongoDB.soft_delete_project db' id t).1 = .error .invalidId
          ∧ (MongoDB.update_project db' id ud t).1 = .error .invalidId)
        ∧ (isValidObjectId id = true → findDoc db'.projects "_id" id = none →
          (MongoDB.soft_delete_project db' id t).1 = .ok none
          ∧ (MongoDB.update_project db' id ud t).1 = .ok none)) :=
  claim_C8
    ⟨true, [[("_id", .str "cccccccccccccccccccccccc"), ("title", .str "t"), ("status", .str "planning")]], []⟩
    "cccccccccccccccccccccccc"
    [("_id", .str "cccccccccccccccccccccccc"), ("title", .str "t"), ("status", .str "planning")]
    1 2 rfl rfl rfl

/-- After the Refiner's upsert, the stored row holds the parsed LLM array
as `high_level_tasks` and the fresh `updated_at`. -/
theorem refine_store_row (plans : List Doc) (pid : String) (P : Doc) (refined : JVal) (now : Nat)
    (hnodup : keysNodup P)
    (hpidval : lookupKey P "project_id" = some (.str pid)) :
    ∃ row, findDoc (mongoUpsert plans "project_id" pid
        (setKey (setKey P "high_level_tasks" refined) "updated_at" (.num now))) "project_id" pid
          = some row
      ∧ lookupKey row "high_level_tasks" = some refined
      ∧ lookupKey row "updated_at" = some (.num now) := by
  have hnodup1 : keysNodup (setKey (setKey P "high_level_tasks" refined) "updated_at" (.num now)) :=
    keysNodup_setKey _ _ _ (keysNodup_setKey _ _ _ hnodup)
  have hpid1 : lookupKey (setKey (setKey P "high_level_tasks" refined) "updated_at" (.num now))
      "project_id" = some (.str pid) := by
    rw [lookupKey_setKey_ne _ "updated_at" "project_id" _ (by decide),
        lookupKey_setKey_ne _ "high_level_tasks" "project_id" _ (by decide)]
    exact hpidval
  have hpidh : hasKey (setKey (setKey P "high_level_tasks" refined) "updated_at" (.num now))
      "project_id" = true := by
    rw [hasKey_eq_isSome, hpid1]; rfl
  have hhlt : lookupKey (setKey (setKey P "high_level_tasks" refined) "updated_at" (.num now))
      "high_level_tasks" = some refined := by
    rw [lookupKey_setKey_ne _ "updated_at" "high_level_tasks" _ (by decide)]
    exact lookupKey_setKey_self _ _ _
  have hhlth : hasKey (setKey (setKey P "high_level_tasks" refined) "updated_at" (.num now))
      "high_level_tasks" = true := by
    rw [hasKey_eq_isSome, hhlt]; rfl
  have hupd : lookupKey (setKey (setKey P "high_level_tasks" refined) "updated_at" (.num now))
      "updated_at" = some (.num now) := lookupKey_setKey_self _ _ _
  have hupdh : hasKey (setKey (setKey P "high_level_tasks" refined) "updated_at" (.num now))
      "updated_at" = true := by
    rw [hasKey_eq_isSome, hupd]; rfl
  obtain ⟨row, hrow, hrowf⟩ := upsert_row_lookup plans "project_id" pid _ hnodup1
    (fun d _ => by
      rw [keyIsStr_eq_true_iff, lookupKey_setKeys_mem d _ _ hnodup1 hpidh]
      exact hpid1)
    (by
      rw [keyIsStr_eq_true_iff, lookupKey_setKeys_mem _ _ _ hnodup1 hpidh]
      exact hpid1)
  refine ⟨row, hrow, ?_, ?_⟩
  · rw [hrowf _ hhlth]; exact hhlt
  · rw [hrowf _ hupdh]; exact hupd

/-- Claim C6 (amended): when the LLM call succeeds and the bracket-repaired
response parses, the Refiner returns the parsed LLM array verbatim as
`refined_tasks` and replaces the stored plan's `high_level_tasks` wholesale
with it, refreshing `updated_at`; the input tasks are returned unchanged in
the separate `original_tasks` field.  Preservation of each task's
`task_name`, `description` and `dependencies` is requested of the LLM in
the prompt but not enforced by the code, so the output preserves them only
when the LLM response does. -/
theorem claim_C6 (db : DB) (pid : String) (tasks : List JVal) (outcomes : List LLMOutcome)
    (now : Nat) (resp : String) (refined : JVal)
    (hready : db.ready = true)
    (hcall : (PlannerAgent.call_with_retry 3 outcomes).1 = .ok resp)
    (hparse : jsonParseL (cleanWrapped '[' ']' resp.data) = some refined)
    (hwf : ∀ r, findDoc db.plans "project_id" pid = some r → keysNodup r) :
    ∃ db',
      PlannerAgent.refine_project_tasks db pid tasks outcomes now
        = (.obj [("project_id", .str pid), ("refined_tasks", refined),
                 ("original_tasks", .arr tasks)], db')
      ∧ ∃ row, findDoc db'.plans "project_id" pid = some row
          ∧ lookupKey row "high_level_tasks" = some refined
          ∧ lookupKey row "updated_at" = some (.num now) := by
  cases hf : findDoc db.plans "project_id" pid with
  | some r =>
      have hres : PlannerAgent.refine_project_tasks db pid tasks outcomes now
          = (.obj [("project_id", .str pid), ("refined_tasks", refined),
                   ("original_tasks", .arr tasks)],
             { db with plans := mongoUpsert db.plans "project_id" pid (setKey (setKey r "high_level_tasks" refined) "updated_at" (.num now)) }) := by
        simp only [PlannerAgent.refine_project_tasks, PlannerAgent.refine_pipeline,
                   hready, hf, hcall, hparse]
        simp
      refine ⟨_, hres, ?_⟩
      exact refine_store_row db.plans pid r refined now (hwf r hf)
        ((keyIsStr_eq_true_iff _ _ _).mp (findDoc_some_keyIsStr db.plans "project_id" pid r hf))
  | none =>
      have hres : PlannerAgent.refine_project_tasks db pid tasks outcomes now
          = (.obj [("project_id", .str pid), ("refined_tasks", refined),
                   ("original_tasks", .arr tasks)],
             { db with plans := mongoUpsert db.plans "project_id" pid (setKey (setKey [("project_id", .str pid), ("high_level_tasks", .arr tasks), ("created_at", .num now), ("updated_at", .num now)] "high_level_tasks" refined) "updated_at" (.num now)) }) := by
        simp only [PlannerAgent.refine_project_tasks, PlannerAgent.refine_pipeline,
                   hready, hf, hcall, hparse]
        simp
      refine ⟨_, hres, ?_⟩
      refine refine_store_row db.plans pid _ refined now ?_ (by simp [lookupKey])
      unfold keysNodup
      simp

/-- Counterexample to claim C6 as stated: with an input task named "A" and
an LLM response whose single task is named "B" (and has no description or
dependencies), the Refiner's output `refined_tasks` is the LLM array as-is;
the original `task_name`, `description` and `dependencies` are not
preserved in it. -/
theorem claim_C6_counterexample :
    (PlannerAgent.refine_project_tasks ⟨true, [], []⟩ "dddddddddddddddddddddddd"
        [.obj [("task_name", .str "A"), ("description", .str "d"), ("dependencies", .arr [])]]
        [.success "[\x7b\"task_name\": \"B\"\x7d]"] 3).1
      = .obj [("project_id", .str "dddddddddddddddddddddddd"),
              ("refined_tasks", .arr [.obj [("task_name", .str "B")]]),
              ("original_tasks", .arr [.obj [("task_name", .str "A"), ("description", .str "d"),
                                             ("dependencies", .arr [])]])]
    ∧ lookupKey [("task_name", JVal.str "B")] "task_name" = some (.str "B")
    ∧ some (JVal.str "B") ≠ some (JVal.str "A") := by
  refine ⟨rfl, rfl, ?_⟩
  simp

/-- Witness for claim C6 at a concrete store and response. -/
theorem claim_C6_witness :
    ∃ db', PlannerAgent.refine_project_tasks ⟨true, [], []⟩ "eeeeeeeeeeeeeeeeeeeeeeee"
        [.obj [("task_name", .str "A")]] [.success "[1, 2]"] 4
      = (.obj [("project_id", .str "eeeeeeeeeeeeeeeeeeeeeeee"),
               ("refined_tasks", .arr [.num 1, .num 2]),
               ("original_tasks", .arr [.obj [("task_name", .str "A")]])], db')
      ∧ ∃ row, findDoc db'.plans "project_id" "eeeeeeeeeeeeeeeeeeeeeeee" = some row
          ∧ lookupKey row "high_level_tasks" = some (.arr [.num 1, .num 2])
          ∧ lookupKey row "updated_at" = some (.num 4) :=
  claim_C6 ⟨true, [], []⟩ "eeeeeeeeeeeeeeeeeeeeeeee" [.obj [("task_name", .str "A")]]
    [.success "[1, 2]"] 4 "[1, 2]" (.arr [.num 1, .num 2]) rfl rfl rfl
    (fun _ h => absurd h (by simp [findDoc]))

theorem store_ok_obj (db : DB) (pid : String) (plan : JVal) (now : Nat) (v : JVal) (db' : DB)
    (h : MongoDB.store_project_plan db pid plan now = .ok (v, db')) : ∃ kvs, v = .obj kvs := by
  unfold MongoDB.store_project_plan at h
  by_cases hr : db.ready = false
  · rw [if_pos hr] at h; simp at h
  · rw [if_neg hr] at h
    cases plan with
    | obj kvs =>
        simp only [Except.ok.injEq, Prod.mk.injEq] at h
        exact ⟨_, h.1.symm⟩
    | str s => simp at h
    | num n => simp at h
    | bool b => simp at h
    | null => simp at h
    | arr xs => simp at h

theorem generate_pipeline_ok_obj (db : DB) (pd : Doc) (outcomes : List LLMOutcome) (now : Nat)
    (v : JVal) (db' : DB)
    (h : PlannerAgent.generate_pipeline db pd outcomes now = .ok (v, db')) :
    ∃ kvs, v = .obj kvs := by
  unfold PlannerAgent.generate_pipeline at h
  split at h
  · simp at h
  · split at h
    · simp at h
    · split at h
      · simp at h
      · split at h
        · simp at h
        · split at h
          · simp at h
          · exact store_ok_obj _ _ _ _ _ _ h

theorem refine_pipeline_ok_obj (db : DB) (pid : String) (tasks : List JVal)
    (outcomes : List LLMOutcome) (now : Nat) (v : JVal) (db' : DB)
    (h : PlannerAgent.refine_pipeline db pid tasks outcomes now = .ok (v, db')) :
    ∃ kvs, v = .obj kvs := by
  unfold PlannerAgent.refine_pipeline at h
  split at h
  · simp at h
  · split at h
    · split at h
      · simp at h
      · split at h
        · simp at h
        · simp only [Except.ok.injEq, Prod.mk.injEq] at h
          exact ⟨_, h.1.symm⟩
    · split at h
      · simp at h
      · split at h
        · simp at h
        · simp only [Except.ok.injEq, Prod.mk.injEq] at h
          exact ⟨_, h.1.symm⟩

/-- Claim C7: the plan-generation and task-refinement pipelines are total,
always returning a dict: either the inner pipeline succeeded and its result
is returned, or the returned dict carries both an `error` and a `message`
field; no exception reaches the caller (totality of the embedding models
the outer `except Exception` handlers). -/
theorem claim_C7 (db : DB) (pd : JVal) (pid : String) (tasks : List JVal)
    (outcomes : List LLMOutcome) (now : Nat) :
    (∃ gkvs, (PlannerAgent.generate_project_plan db pd outcomes now).1 = .obj gkvs)
    ∧ (∃ rkvs, (PlannerAgent.refine_project_tasks db pid tasks outcomes now).1 = .obj rkvs)
    ∧ ((∃ pdk res db', pd = .obj pdk
          ∧ PlannerAgent.generate_pipeline db pdk outcomes now = .ok (res, db')
          ∧ (PlannerAgent.generate_project_plan db pd outcomes now).1 = res)
       ∨ (∃ gkvs, (PlannerAgent.generate_project_plan db pd outcomes now).1 = .obj gkvs
            ∧ hasKey gkvs "error" = true ∧ hasKey gkvs "message" = true))
    ∧ ((∃ res db', PlannerAgent.refine_pipeline db pid tasks outcomes now = .ok (res, db')
          ∧ (PlannerAgent.refine_project_tasks db pid tasks outcomes now).1 = res)
       ∨ (∃ rkvs, (PlannerAgent.refine_project_tasks db pid tasks outcomes now).1 = .obj rkvs
            ∧ hasKey rkvs "error" = true ∧ hasKey rkvs "message" = true)) := by
  have hgen : (∃ pdk res db', pd = .obj pdk
        ∧ PlannerAgent.generate_pipeline db pdk outcomes now = .ok (res, db')
        ∧ (PlannerAgent.generate_project_plan db pd outcomes now).1 = res)
      ∨ (∃ gkvs, (PlannerAgent.generate_project_plan db pd outcomes now).1 = .obj gkvs
          ∧ hasKey gkvs "error" = true ∧ hasKey gkvs "message" = true) := by
    cases pd with
    | obj pdk =>
        cases hy : PlannerAgent.generate_pipeline db pdk outcomes now with
        | ok p =>
            obtain ⟨res, db'⟩ := p
            left
            exact ⟨pdk, res, db', rfl, hy, by simp [PlannerAgent.generate_project_plan, hy]⟩
        | error e =>
            right
            refine ⟨[("error", .str (pyStrExc e)),
                     ("message", .str "Failed to generate project plan.")], ?_, rfl, rfl⟩
            simp [PlannerAgent.generate_project_plan, hy]
    | str s =>
        right
        exact ⟨[("error", .str (pyStrExc .typeErr)),
                ("message", .str "Failed to set up project plan generation.")], rfl, rfl, rfl⟩
    | num n =>
        right
        exact ⟨[("error", .str (pyStrExc .typeErr)),
                ("message", .str "Failed to set up project plan generation.")], rfl, rfl, rfl⟩
    | bool b =>
        right
        exact ⟨[("error", .str (pyStrExc .typeErr)),
                ("message", .str "Failed to set up project plan generation.")], rfl, rfl, rfl⟩
    | null =>
        right
        exact ⟨[("error", .str (pyStrExc .typeErr)),
                ("message", .str "Failed to set up project plan generation.")], rfl, rfl, rfl⟩
    | arr xs =>
        right
        exact ⟨[("error", .str (pyStrExc .typeErr)),
                ("message", .str "Failed to set up project plan generation.")], rfl, rfl, rfl⟩
  have href : (∃ res db', PlannerAgent.refine_pipeline db pid tasks outcomes now = .ok (res, db')
        ∧ (PlannerAgent.refine_project_tasks db pid tasks outcomes now).1 = res)
      ∨ (∃ rkvs, (PlannerAgent.refine_project_tasks db pid tasks outcomes now).1 = .obj rkvs
          ∧ hasKey rkvs "error" = true ∧ hasKey rkvs "message" = true) := by
    cases hy : PlannerAgent.refine_pipeline db pid tasks outcomes now with
    | ok p =>
        obtain ⟨res, db'⟩ := p
        left
        exact ⟨res, db', rfl, by simp [PlannerAgent.refine_project_tasks, hy]⟩
    | error e =>
        right
        refine ⟨[("error", .str (pyStrExc e)),
                 ("message", .str "Failed to refine project tasks.")], ?_, rfl, rfl⟩
        simp [PlannerAgent.refine_project_tasks, hy]
  refine ⟨?_, ?_, ?_, ?_⟩
  · rcases hgen with ⟨pdk, res, db', _, hpipe, hres⟩ | ⟨gkvs, hg, _, _⟩
    · obtain ⟨kvs, hk⟩ := generate_pipeline_ok_obj db pdk outcomes now res db' hpipe
      exact ⟨kvs, by rw [hres, hk]⟩
    · exact ⟨gkvs, hg⟩
  · rcases href with ⟨res, db', hpipe, hres⟩ | ⟨rkvs, hg, _, _⟩
    · obtain ⟨kvs, hk⟩ := refine_pipeline_ok_obj db pid tasks outcomes now res db' hpipe
      exact ⟨kvs, by rw [hres, hk]⟩
    · exact ⟨rkvs, hg⟩
  · exact hgen
  · exact href

/-! Lemmas about the Python string operations used by the repair step. -/

theorem findIdxCh_eq_none_of_not_mem (cs : List Char) (c : Char) (h : c ∉ cs) :
    findIdxCh cs c = none := by
  induction cs with
  | nil => rfl
  | cons x rest ih =>
      have hx : ¬(x = c) := fun hh => h (by rw [hh]; exact List.mem_cons_self c rest)
      have h2 : c ∉ rest := fun hh => h (List.mem_cons_of_mem x hh)
      simp [findIdxCh, hx, ih h2]

theorem findIdxCh_append_of_not_mem (A B : List Char) (c : Char) (h : c ∉ A) :
    findIdxCh (A ++ B) c = (findIdxCh B c).map (· + A.length) := by
  induction A with
  | nil =>
      simp only [List.nil_append, List.length_nil]
      cases findIdxCh B c <;> simp
  | cons x rest ih =>
      have hx : ¬(x = c) := fun hh => h (by rw [hh]; exact List.mem_cons_self c rest)
      have h2 : c ∉ rest := fun hh => h (List.mem_cons_of_mem x hh)
      rw [List.cons_append]
      rw [show findIdxCh (x :: (rest ++ B)) c = (findIdxCh (rest ++ B) c).map (· + 1) from by
        simp [findIdxCh, hx]]
      rw [ih h2]
      cases findIdxCh B c with
      | none => rfl
      | some k =>
          show some (k + rest.length + 1) = some (k + (rest.length + 1))
          exact congrArg some (by omega)

theorem findIdxCh_cons_self (c : Char) (cs : List Char) : findIdxCh (c :: cs) c = some 0 := by
  simp [findIdxCh]

theorem dropWhile_append_of_head (p : Char → Bool) (A B : List Char) (b : Char)
    (hB : B.head? = some b) (hb : p b = false) :
    List.dropWhile p (A ++ B) = List.dropWhile p A ++ B := by
  induction A with
  | nil =>
      cases B with
      | nil => simp at hB
      | cons y ys =>
          simp only [Option.some.injEq, List.head?_cons] at hB
          subst hB
          simp [List.dropWhile_cons, hb]
  | cons x rest ih =>
      by_cases hx : p x = true
      · simp [List.dropWhile_cons, hx, ih]
      · have hx' : p x = false := by
          cases hp : p x with
          | false => rfl
          | true => exact absurd hp hx
        simp [List.dropWhile_cons, hx']

theorem mem_of_mem_dropWhile (p : Char → Bool) (l : List Char) (c : Char)
    (h : c ∈ List.dropWhile p l) : c ∈ l :=
  (List.dropWhile_suffix p).sublist.subset h

/-- The repair slice extracts exactly the embedded bracket-delimited payload
when the wrapper text contains none of the two bracket characters and the
prefix starts with a non-whitespace character. -/
theorem cleanWrapped_extract (P S Q : List Char)
    (hp : ∀ c ∈ P, c ≠ '{' ∧ c ≠ '}')
    (hq : ∀ c ∈ Q, c ≠ '{' ∧ c ≠ '}')
    (hpne : P ≠ [])
    (hphead : ∀ c, P.head? = some c → isWs c = false)
    (hshead : S.head? = some '{')
    (hslast : S.getLast? = some '}') :
    cleanWrapped '{' '}' (P ++ S ++ Q) = S := by
  obtain ⟨c0, P', rfl⟩ : ∃ c0 P', P = c0 :: P' := by
    cases P with
    | nil => exact absurd rfl hpne
    | cons a l => exact ⟨a, l, rfl⟩
  obtain ⟨S', rfl⟩ : ∃ S', S = '{' :: S' := by
    cases S with
    | nil => simp at hshead
    | cons a l =>
        simp only [List.head?_cons, Option.some.injEq] at hshead
        subst hshead
        exact ⟨l, rfl⟩
  have hws : isWs c0 = false := hphead c0 rfl
  obtain ⟨R', hSrev⟩ : ∃ R', ('{' :: S').reverse = '}' :: R' := by
    have h := List.head?_reverse ('{' :: S')
    rw [hslast] at h
    cases hrev : ('{' :: S').reverse with
    | nil => rw [hrev] at h; simp at h
    | cons a l =>
        rw [hrev] at h
        simp only [List.head?_cons, Option.some.injEq] at h
        subst h
        exact ⟨l, rfl⟩
  have hleft : List.dropWhile isWs ((c0 :: P') ++ ('{' :: S') ++ Q)
      = (c0 :: P') ++ ('{' :: S') ++ Q := by
    simp [List.dropWhile_cons, hws]
  have hright : List.dropWhile isWs (((c0 :: P') ++ ('{' :: S') ++ Q).reverse)
      = List.dropWhile isWs Q.reverse ++ (('{' :: S').reverse ++ (c0 :: P').reverse) := by
    rw [List.reverse_append, List.reverse_append]
    refine dropWhile_append_of_head isWs Q.reverse (('{' :: S').reverse ++ (c0 :: P').reverse)
      '}' ?_ rfl
    rw [hSrev]
    rfl
  have hT : pyStripL ((c0 :: P') ++ ('{' :: S') ++ Q)
      = (c0 :: P') ++ ('{' :: S') ++ (List.dropWhile isWs Q.reverse).reverse := by
    unfold pyStripL
    rw [hleft, hright]
    simp only [List.reverse_append, List.reverse_reverse]
  have hc0 : c0 ≠ '{' := (hp c0 (List.mem_cons_self c0 P')).1
  have hfind : findIdxCh ((c0 :: P') ++ ('{' :: S') ++ (List.dropWhile isWs Q.reverse).reverse)
      '{' = some (c0 :: P').length := by
    rw [List.append_assoc]
    rw [findIdxCh_append_of_not_mem (c0 :: P') _ '{' (fun hm => (hp _ hm).1 rfl)]
    rw [show ('{' :: S') ++ (List.dropWhile isWs Q.reverse).reverse
          = '{' :: (S' ++ (List.dropWhile isWs Q.reverse).reverse) from rfl]
    rw [findIdxCh_cons_self]
    simp
  have hfr : findIdxCh (((c0 :: P') ++ ('{' :: S') ++ (List.dropWhile isWs Q.reverse).reverse).reverse)
      '}' = some (List.dropWhile isWs Q.reverse).reverse.length := by
    rw [List.reverse_append, List.reverse_append]
    rw [findIdxCh_append_of_not_mem ((List.dropWhile isWs Q.reverse).reverse).reverse _ '}'
      (fun hm => (hq _ (List.mem_reverse.mp (mem_of_mem_dropWhile isWs Q.reverse _
        (List.mem_reverse.mp (by simpa using hm))))).2 rfl)]
    rw [hSrev]
    rw [show ('}' :: R') ++ (c0 :: P').reverse = '}' :: (R' ++ (c0 :: P').reverse) from rfl]
    rw [findIdxCh_cons_self]
    simp
  have hrfind : rfindIdxCh ((c0 :: P') ++ ('{' :: S') ++ (List.dropWhile isWs Q.reverse).reverse)
      '}' = some ((c0 :: P').length + ('{' :: S').length - 1) := by
    unfold rfindIdxCh
    rw [hfr]
    refine congrArg some ?_
    simp only [List.length_append, List.length_reverse, List.length_cons]
    omega
  unfold cleanWrapped
  rw [hT, hfind, hrfind]
  rw [show ((c0 :: P') ++ ('{' :: S') ++ (List.dropWhile isWs Q.reverse).reverse).head?
        = some c0 from rfl]
  rw [if_neg (by simp [hc0])]
  show List.drop (c0 :: P').length
      (List.take ((c0 :: P').length + ('{' :: S').length - 1 + 1)
        ((c0 :: P') ++ ('{' :: S') ++ (List.dropWhile isWs Q.reverse).reverse)) = '{' :: S'
  rw [show (c0 :: P').length + ('{' :: S').length - 1 + 1
        = (c0 :: P').length + ('{' :: S').length from by simp only [List.length_cons]; omega]
  rw [show (c0 :: P').length + ('{' :: S').length
        = ((c0 :: P') ++ ('{' :: S')).length from (List.length_append _ _).symm]
  rw [List.take_left]
  rw [List.drop_left]

/-- When the stripped response contains no brace at all, the repair step
leaves it unchanged. -/
theorem cleanWrapped_no_brace (cs : List Char)
    (h : ∀ c ∈ pyStripL cs, c ≠ '{' ∧ c ≠ '}') :
    cleanWrapped '{' '}' cs = pyStripL cs := by
  have hfind : findIdxCh (pyStripL cs) '{' = none :=
    findIdxCh_eq_none_of_not_mem _ _ (fun hm => (h _ hm).1 rfl)
  have hcond : ¬((pyStripL cs).head? = some '{') := by
    cases hh : (pyStripL cs).head? with
    | none => simp
    | some c =>
        have hc : c ≠ '{' := (h c (List.mem_of_mem_head? hh)).1
        simp [hc]
  unfold cleanWrapped
  rw [if_neg hcond, hfind]

/-- Claim C3 (amended): the plan-repair step trims the response and, when
the trimmed text does not start with a brace, slices between the first and
last brace before `json.loads`; a valid JSON object wrapped in brace-free
conversational text therefore parses to exactly the embedded object, and a
trimmed response containing no brace pair fails with `MalformedPlanResponse`
unless the remaining text is itself a valid JSON value (for example the bare
JSON number "42" or a bare array, which `json.loads` accepts without any
brace). -/
theorem claim_C3 (p s q : String)
    (hp : ∀ c ∈ p.data, c ≠ '{' ∧ c ≠ '}')
    (hq : ∀ c ∈ q.data, c ≠ '{' ∧ c ≠ '}')
    (hpne : p.data ≠ [])
    (hphead : ∀ c, p.data.head? = some c → isWs c = false)
    (hshead : s.data.head? = some '{')
    (hslast : s.data.getLast? = some '}') :
    cleanWrapped '{' '}' (p ++ s ++ q).data = s.data
    ∧ (∀ v, jsonParseL s.data = some v →
        PlannerAgent.parsePlanResponse (p ++ s ++ q) = .ok v)
    ∧ (jsonParseL s.data = none →
        PlannerAgent.parsePlanResponse (p ++ s ++ q) = .error .malformedPlan)
    ∧ (∀ r : String, (∀ c ∈ pyStripL r.data, c ≠ '{' ∧ c ≠ '}') →
        jsonParseL (pyStripL r.data) = none →
        PlannerAgent.parsePlanResponse r = .error .malformedPlan) := by
  have hdata : (p ++ s ++ q).data = p.data ++ s.data ++ q.data := by
    rw [String.data_append, String.data_append]
  have hclean : cleanWrapped '{' '}' (p ++ s ++ q).data = s.data := by
    rw [hdata]
    exact cleanWrapped_extract p.data s.data q.data hp hq hpne hphead hshead hslast
  refine ⟨hclean, ?_, ?_, ?_⟩
  · intro v hv
    unfold PlannerAgent.parsePlanResponse
    rw [hclean, hv]
  · intro hv
    unfold PlannerAgent.parsePlanResponse
    rw [hclean, hv]
  · intro r hr hparse
    unfold PlannerAgent.parsePlanResponse
    rw [cleanWrapped_no_brace r.data hr, hparse]

/-- Witness for claim C3: the response from the specification's example,
a JSON object wrapped as conversational text, parses to the embedded
object; a brace-free non-JSON response fails with `MalformedPlanResponse`. -/
theorem claim_C3_witness :
    PlannerAgent.parsePlanResponse ("Sure! " ++ "\x7b\"a\": 1\x7d" ++ " thanks")
      = .ok (.obj [("a", .num 1)])
    ∧ PlannerAgent.parsePlanResponse "I cannot help with that."
      = .error .malformedPlan := by
  have h := claim_C3 "Sure! " "\x7b\"a\": 1\x7d" " thanks"
    (by decide) (by decide) (by decide)
    (fun c hc => by
      rw [show ("Sure! ".data.head?) = some 'S' from rfl] at hc
      injection hc with h2
      subst h2
      rfl)
    rfl rfl
  exact ⟨h.2.1 (.obj [("a", .num 1)]) rfl, h.2.2.2 "I cannot help with that." (by decide) rfl⟩

/-- Counterexample to claim C3 as stated: the trimmed response "42"
contains no brace pair, yet the repair step parses it successfully as the
JSON number 42 instead of failing with `MalformedPlanResponse`. -/
theorem claim_C3_counterexample :
    ((pyStripL "42".data).all (fun c => !(c == '{') && !(c == '}')) = true)
    ∧ PlannerAgent.parsePlanResponse "42" = .ok (.num 42)
    ∧ (Except.ok (JVal.num 42) : Except PyExc JVal) ≠ .error .malformedPlan := by
  refine ⟨rfl, rfl, ?_⟩
  simp

theorem store_ok_ready (db : DB) (pid : String) (plan : JVal) (now : Nat) (v : JVal) (db' : DB)
    (h : MongoDB.store_project_plan db pid plan now = .ok (v, db')) : db'.ready = db.ready := by
  unfold MongoDB.store_project_plan at h
  by_cases hr : db.ready = false
  · rw [if_pos hr] at h; simp at h
  · rw [if_neg hr] at h
    cases plan with
    | obj kvs =>
        simp only [Except.ok.injEq, Prod.mk.injEq] at h
        rw [← h.2]
    | str s => simp at h
    | num n => simp at h
    | bool b => simp at h
    | null => simp at h
    | arr xs => simp at h

theorem generate_pipeline_ok_ready (db : DB) (pd : Doc) (outcomes : List LLMOutcome) (now : Nat)
    (v : JVal) (db' : DB)
    (h : PlannerAgent.generate_pipeline db pd outcomes now = .ok (v, db')) :
    db'.ready = db.ready := by
  unfold PlannerAgent.generate_pipeline at h
  split at h
  · simp at h
  · split at h
    · simp at h
    · split at h
      · simp at h
      · split at h
        · simp at h
        · split at h
          · simp at h
          · exact store_ok_ready _ _ _ _ _ _ h

/-- Every error the plan route handler can produce carries status 500 or
400, never 404. -/
theorem handler_status_not_404 (db : DB) (pid : String) (outcomes : List LLMOutcome)
    (now : Nat) (st : Nat) (detail : String)
    (h : (Routes.generate_plan_for_existing_project db pid outcomes now).1 = .err st detail) :
    st ≠ 404 := by
  unfold Routes.generate_plan_for_existing_project at h
  repeat' split at h
  all_goals first | (simp at h; omega) | simp at h

/-- Claim C9: for a well-formed project id with no stored plan and no
project record, the plan route handler does not return a 404: it builds the
fixed placeholder context (title "Untitled Project", status "planning",
progress 0, empty tags and team), generates a plan from that placeholder,
normalizes the result to the four required fields with defaults, stores it
under the id (stamping the timestamps) and returns it with a success
status. -/
theorem claim_C9 (db : DB) (pid : String) (outcomes : List LLMOutcome) (now : Nat)
    (hready : db.ready = true)
    (hvalid : isValidObjectId pid = true)
    (hnoplan : findDoc db.plans "project_id" pid = none)
    (hnoproj : findDoc db.projects "_id" pid = none) :
    Routes.mkProjectContext none pid
      = .obj [("_id", .str pid), ("title", .str "Untitled Project"),
              ("description", .str "Project details to be determined"),
              ("status", .str "planning"), ("tags", .arr []), ("team", .arr []),
              ("progress", .num 0)]
    ∧ (∀ st detail, (Routes.generate_plan_for_existing_project db pid outcomes now).1
          = .err st detail → st ≠ 404)
    ∧ (∀ pkvs db1,
        PlannerAgent.generate_project_plan db (Routes.mkProjectContext none pid) outcomes now
          = (.obj pkvs, db1) →
        hasKey pkvs "error" = false →
        ∃ row db2,
          Routes.generate_plan_for_existing_project db pid outcomes now
            = (.ok (.obj (setKey (setKey (Routes.normalize_plan pkvs) "updated_at" (.num now))
                "created_at" (.num now))), db2)
          ∧ findDoc db2.plans "project_id" pid = some row
          ∧ lookupKey row "project_summary"
              = some ((lookupKey pkvs "project_summary").getD (.str "Project summary to be determined"))
          ∧ lookupKey row "key_features_deliverables"
              = some ((lookupKey pkvs "key_features_deliverables").getD (.arr []))
          ∧ lookupKey row "major_milestones"
              = some ((lookupKey pkvs "major_milestones").getD (.arr []))
          ∧ lookupKey row "high_level_tasks"
              = some ((lookupKey pkvs "high_level_tasks").getD (.arr []))
          ∧ lookupKey row "updated_at" = some (.num now)) := by
  refine ⟨rfl, fun st detail h => handler_status_not_404 db pid outcomes now st detail h, ?_⟩
  intro pkvs db1 hg hnoerr
  -- the inner pipeline must have succeeded (a failure dict would carry "error")
  have hpipe : PlannerAgent.generate_pipeline db
      [("_id", .str pid), ("title", .str "Untitled Project"),
       ("description", .str "Project details to be determined"),
       ("status", .str "planning"), ("tags", .arr []), ("team", .arr []),
       ("progress", .num 0)] outcomes now = .ok (.obj pkvs, db1) := by
    have hg2 : (match PlannerAgent.generate_pipeline db
        [("_id", .str pid), ("title", .str "Untitled Project"),
         ("description", .str "Project details to be determined"),
         ("status", .str "planning"), ("tags", .arr []), ("team", .arr []),
         ("progress", .num 0)] outcomes now with
      | Except.ok (plan, db') => (plan, db')
      | Except.error e =>
          ((JVal.obj [("error", .str (pyStrExc e)),
                      ("message", .str "Failed to generate project plan.")]), db))
        = ((JVal.obj pkvs), db1) := hg
    split at hg2
    · next plan' db' heq =>
        simp only [Prod.mk.injEq] at hg2
        rw [hg2.1, hg2.2] at heq
        exact heq
    · next e heq =>
        simp only [Prod.mk.injEq, JVal.obj.injEq] at hg2
        rw [← hg2.1] at hnoerr
        simp [hasKey] at hnoerr
  have hready1 : db1.ready = true := by
    rw [generate_pipeline_ok_ready db _ outcomes now _ db1 hpipe, hready]
  have hck2 : hasKey (setKey (Routes.normalize_plan pkvs) "updated_at" (.num now))
      "created_at" = false := by
    rw [hasKey_setKey_ne _ "updated_at" "created_at" _ (by decide)]
    rfl
  have hstore : MongoDB.store_project_plan db1 pid (.obj (Routes.normalize_plan pkvs)) now
      = .ok (.obj (setKey (setKey (Routes.normalize_plan pkvs) "updated_at" (.num now)) "created_at" (.num now)), { db1 with plans := mongoUpsert db1.plans "project_id" pid (setKey (setKey (Routes.normalize_plan pkvs) "updated_at" (.num now)) "created_at" (.num now)) }) := by
    unfold MongoDB.store_project_plan
    rw [hready1]
    simp [hck2]
  have hhandler : Routes.generate_plan_for_existing_project db pid outcomes now
      = (.ok (.obj (setKey (setKey (Routes.normalize_plan pkvs) "updated_at" (.num now)) "created_at" (.num now))), { db1 with plans := mongoUpsert db1.plans "project_id" pid (setKey (setKey (Routes.normalize_plan pkvs) "updated_at" (.num now)) "created_at" (.num now)) }) := by
    unfold Routes.generate_plan_for_existing_project
    rw [if_neg (by rw [hready]; simp)]
    rw [if_neg (by rw [hvalid]; simp)]
    simp [hnoplan, hnoproj, hg, hnoerr, hstore]
  have hpidf : hasKey (setKey (setKey (Routes.normalize_plan pkvs) "updated_at" (.num now))
      "created_at" (.num now)) "project_id" = false := by
    rw [hasKey_setKey_ne _ "created_at" "project_id" _ (by decide),
        hasKey_setKey_ne _ "updated_at" "project_id" _ (by decide)]
    rfl
  have hnodupS : keysNodup (setKey (setKey (Routes.normalize_plan pkvs) "updated_at" (.num now))
      "created_at" (.num now)) := by
    unfold keysNodup
    rw [keys_setKey_of_not_hasKey _ _ _ hck2,
        keys_setKey_of_not_hasKey _ _ _
          (show hasKey (Routes.normalize_plan pkvs) "updated_at" = false from rfl)]
    rw [show (Routes.normalize_plan pkvs).map Prod.fst
          = ["project_summary", "key_features_deliverables", "major_milestones",
             "high_level_tasks"] from rfl]
    decide
  obtain ⟨row, hrow, hrowf⟩ := upsert_row_lookup_of_no_filter_key db1.plans "project_id" pid
    (setKey (setKey (Routes.normalize_plan pkvs) "updated_at" (.num now)) "created_at" (.num now))
    hnodupS hpidf
  refine ⟨row, _, hhandler, hrow, ?_, ?_, ?_, ?_, ?_⟩
  · rw [hrowf "project_summary" (by
      rw [hasKey_setKey_ne _ "created_at" "project_summary" _ (by decide),
          hasKey_setKey_ne _ "updated_at" "project_summary" _ (by decide)]
      rfl)]
    rw [lookupKey_setKey_ne _ "created_at" "project_summary" _ (by decide),
        lookupKey_setKey_ne _ "updated_at" "project_summary" _ (by decide)]
    rfl
  · rw [hrowf "key_features_deliverables" (by
      rw [hasKey_setKey_ne _ "created_at" "key_features_deliverables" _ (by decide),
          hasKey_setKey_ne _ "updated_at" "key_features_deliverables" _ (by decide)]
      rfl)]
    rw [lookupKey_setKey_ne _ "created_at" "key_features_deliverables" _ (by decide),
        lookupKey_setKey_ne _ "updated_at" "key_features_deliverables" _ (by decide)]
    rfl
  · rw [hrowf "major_milestones" (by
      rw [hasKey_setKey_ne _ "created_at" "major_milestones" _ (by decide),
          hasKey_setKey_ne _ "updated_at" "major_milestones" _ (by decide)]
      rfl)]
    rw [lookupKey_setKey_ne _ "created_at" "major_milestones" _ (by decide),
        lookupKey_setKey_ne _ "updated_at" "major_milestones" _ (by decide)]
    rfl
  · rw [hrowf "high_level_tasks" (by
      rw [hasKey_setKey_ne _ "created_at" "high_level_tasks" _ (by decide),
          hasKey_setKey_ne _ "updated_at" "high_level_tasks" _ (by decide)]
      rfl)]
    rw [lookupKey_setKey_ne _ "created_at" "high_level_tasks" _ (by decide),
        lookupKey_setKey_ne _ "updated_at" "high_level_tasks" _ (by decide)]
    rfl
  · rw [hrowf "updated_at" (by
      rw [hasKey_setKey_ne _ "created_at" "updated_at" _ (by decide)]
      exact hasKey_setKey_self _ _ _)]
    rw [lookupKey_setKey_ne _ "created_at" "updated_at" _ (by decide)]
    exact lookupKey_setKey_self _ _ _

/-- Witness for claim C9: an empty ready store, a well-formed id and a
provider that returns a complete JSON plan on the first call. -/
theorem claim_C9_witness :
    Routes.mkProjectContext none "aaaaaaaaaaaaaaaaaaaaaaaa"
      = .obj [("_id", .str "aaaaaaaaaaaaaaaaaaaaaaaa"), ("title", .str "Untitled Project"),
              ("description", .str "Project details to be determined"),
              ("status", .str "planning"), ("tags", .arr []), ("team", .arr []),
              ("progress", .num 0)]
    ∧ (∀ st detail,
        (Routes.generate_plan_for_existing_project ⟨true, [], []⟩ "aaaaaaaaaaaaaaaaaaaaaaaa"
          [.success "\x7b\"project_summary\": \"s\", \"key_features_deliverables\": [], \"major_milestones\": [], \"high_level_tasks\": []\x7d"] 7).1
          = .err st detail → st ≠ 404)
    ∧ (∃ row db2,
        Routes.generate_plan_for_existing_project ⟨true, [], []⟩ "aaaaaaaaaaaaaaaaaaaaaaaa"
          [.success "\x7b\"project_summary\": \"s\", \"key_features_deliverables\": [], \"major_milestones\": [], \"high_level_tasks\": []\x7d"] 7
          = (.ok (.obj (setKey (setKey (Routes.normalize_plan
              [("project_summary", .str "s"), ("key_features_deliverables", .arr []),
               ("major_milestones", .arr []), ("high_level_tasks", .arr []),
               ("updated_at", .num 7), ("created_at", .num 7)]) "updated_at" (.num 7))
              "created_at" (.num 7))), db2)
        ∧ findDoc db2.plans "project_id" "aaaaaaaaaaaaaaaaaaaaaaaa" = some row
        ∧ lookupKey row "project_summary"
            = some ((lookupKey [("project_summary", JVal.str "s"), ("key_features_deliverables", .arr []),
               ("major_milestones", .arr []), ("high_level_tasks", .arr []),
               ("updated_at", .num 7), ("created_at", .num 7)] "project_summary").getD
                (.str "Project summary to be determined"))
        ∧ lookupKey row "key_features_deliverables"
            = some ((lookupKey [("project_summary", JVal.str "s"), ("key_features_deliverables", .arr []),
               ("major_milestones", .arr []), ("high_level_tasks", .arr []),
               ("updated_at", .num 7), ("created_at", .num 7)] "key_features_deliverables").getD (.arr []))
        ∧ lookupKey row "major_milestones"
            = some ((lookupKey [("project_summary", JVal.str "s"), ("key_features_deliverables", .arr []),
               ("major_milestones", .arr []), ("high_level_tasks", .arr []),
               ("updated_at", .num 7), ("created_at", .num 7)] "major_milestones").getD (.arr []))
        ∧ lookupKey row "high_level_tasks"
            = some ((lookupKey [("project_summary", JVal.str "s"), ("key_features_deliverables", .arr []),
               ("major_milestones", .arr []), ("high_level_tasks", .arr []),
               ("updated_at", .num 7), ("created_at", .num 7)] "high_level_tasks").getD (.arr []))
        ∧ lookupKey row "updated_at" = some (.num 7)) := by
  have h := claim_C9 ⟨true, [], []⟩ "aaaaaaaaaaaaaaaaaaaaaaaa"
    [.success "\x7b\"project_summary\": \"s\", \"key_features_deliverables\": [], \"major_milestones\": [], \"high_level_tasks\": []\x7d"] 7 rfl rfl rfl rfl
  refine ⟨h.1, h.2.1, ?_⟩
  exact h.2.2
    [("project_summary", .str "s"), ("key_features_deliverables", .arr []),
     ("major_milestones", .arr []), ("high_level_tasks", .arr []),
     ("updated_at", .num 7), ("created_at", .num 7)]
    ⟨true, [],
     [[("project_id", .str "aaaaaaaaaaaaaaaaaaaaaaaa"), ("project_summary", .str "s"),
       ("key_features_deliverables", .arr []), ("major_milestones", .arr []),
       ("high_level_tasks", .arr []), ("updated_at", .num 7), ("created_at", .num 7)]]⟩
    rfl rfl
